import Mathlib

/-!
Shallow embedding of the `katana-nlp-to-sql` repository.

The repository converts natural-language questions about a telecom analytics
database into SQL (`src/model/nlp2sql.py`) and serves them over a FastAPI
router (`src/app/api/query_router.py`).  The string- and regex-level logic of
those two files is embedded here as executable Lean definitions:

* strings are `List Char`; Python `str.lower()` / `str.upper()` are modelled
  per character with `Char.toLower` / `Char.toUpper` (the source only relies
  on ASCII case folding);
* the concrete regular expressions of the source are embedded through a small
  backtracking matcher (`Re`) with Python `re` semantics for the constructs
  the source uses (greedy and lazy repetition over character classes,
  alternation preferring the left branch, optional groups, word boundaries,
  leftmost search, non-overlapping left-to-right substitution);
  `\s` and `\w` are modelled by their ASCII meaning;
* I/O (psycopg2, the llama.cpp language model, wall-clock time) is modelled
  by explicit environment parameters: a `DBEnv` describes what connecting
  and executing a statement would do, an `LLM` oracle maps a prompt to the
  model's answer or a raised exception (its sampling parameters such as
  `max_tokens` and `temperature` are absorbed by the oracle), and elapsed
  response times are an explicit rational parameter;
* `functools.lru_cache(maxsize=50)` on `cached_execute_query` is modelled by
  an explicit most-recent-first association list threaded through the calls.
-/

abbrev Chars := List Char

/-- Characters matched by Python's `\s` (ASCII). -/
def wsChar (c : Char) : Bool :=
  c = ' ' || c = '\t' || c = '\n' || c = '\r' || c = '\x0b' || c = '\x0c'

/-- Characters matched by Python's `\w` (ASCII). -/
def wordChar (c : Char) : Bool := c.isAlphanum || c = '_'

/-- Python `str.lower()`, per character (ASCII case folding). -/
def lowerL (s : Chars) : Chars := s.map Char.toLower

/-- Python `str.upper()`, per character (ASCII case folding). -/
def upperL (s : Chars) : Chars := s.map Char.toUpper

/-- Convert a Lean string literal to the character-list representation. -/
def str (s : String) : Chars := s.toList

/-- Python `str.strip()`: remove leading and trailing whitespace. -/
def pyStrip (s : Chars) : Chars :=
  (((s.dropWhile wsChar).reverse).dropWhile wsChar).reverse

/-- Python `str.rstrip(';')`: remove trailing semicolons. -/
def rstripSemi (s : Chars) : Chars :=
  ((s.reverse).dropWhile (fun c => c = ';')).reverse

/-- Decidable "is infix of" on character lists: `isSub p s` is true iff `p`
occurs contiguously in `s`.  It models Python's `sub in s`. -/
def isSub (p s : Chars) : Bool :=
  if p.isPrefixOf s then true
  else
    match s with
    | [] => false
    | _ :: t => isSub p t

/-- Python `p in s` (substring test). -/
def containsL (s p : Chars) : Bool := isSub p s

/-! ### A small regex matcher

Only the constructs appearing in the repository's patterns are represented.
Repetitions (`+`, `+?`, `*?`) in the source always range over a single
character class, which is what `plus`, `plusL` and `starL` implement.
-/

/-- Regex abstract syntax for the patterns used by the source. -/
inductive Re where
  /-- a literal string -/
  | lit : Chars → Re
  /-- a single character from a class -/
  | cls : (Char → Bool) → Re
  /-- concatenation -/
  | seq : Re → Re → Re
  /-- alternation, preferring the left branch (Python semantics) -/
  | alt : Re → Re → Re
  /-- greedy option `r?` -/
  | opt : Re → Re
  /-- greedy `c+` over a character class -/
  | plus : (Char → Bool) → Re
  /-- lazy `c+?` over a character class -/
  | plusL : (Char → Bool) → Re
  /-- lazy `c*?` over a character class -/
  | starL : (Char → Bool) → Re
  /-- greedy `c*` over a character class -/
  | star : (Char → Bool) → Re
  /-- capturing group with its Python group number -/
  | grp : Nat → Re → Re
  /-- word boundary `\b` -/
  | bnd : Re

/-- Captured group spans: group number, start index, end index. -/
abbrev Groups := List (Nat × Nat × Nat)

/-- Does the literal `l` occur in `s` starting at index `i`? -/
def litAt (s : Chars) (i : Nat) (l : Chars) : Bool :=
  (s.drop i).take l.length = l

/-- Length of the maximal run of class characters at the front of `s`. -/
def clsRun (p : Char → Bool) (s : Chars) : Nat := (s.takeWhile p).length

/-- `m, m-1, …, 1`: candidate lengths for a greedy repetition. -/
def descLens (m : Nat) : List Nat := (List.range m).map (fun d => m - d)

/-- `1, 2, …, m`: candidate lengths for a lazy `+?` repetition. -/
def ascLens (m : Nat) : List Nat := (List.range m).map (· + 1)

/-- First success of `f` over a list of candidates (backtracking order). -/
def firstSome (f : Nat → Option α) : List Nat → Option α
  | [] => none
  | j :: js =>
    match f j with
    | some r => some r
    | none => firstSome f js

/-- Is there a word character just before index `i`? -/
def wordBefore (s : Chars) (i : Nat) : Bool :=
  match i with
  | 0 => false
  | j + 1 =>
    match s[j]? with
    | some c => wordChar c
    | none => false

/-- Is there a word character at index `i`? -/
def wordAt (s : Chars) (i : Nat) : Bool :=
  match s[i]? with
  | some c => wordChar c
  | none => false

/-- Python `\b`: exactly one side of position `i` is a word character. -/
def boundaryAt (s : Chars) (i : Nat) : Bool := wordBefore s i != wordAt s i

/-- CPS backtracking matcher: try to match `r` in `s` at index `i`, calling
the continuation `k` with the end index and captured groups. -/
def Re.matchAt : Re → (s : Chars) → (i : Nat) →
    (k : Nat → Groups → Option (Nat × Groups)) → Groups → Option (Nat × Groups)
  | .lit l, s, i, k, g => if litAt s i l then k (i + l.length) g else none
  | .cls p, s, i, k, g =>
    match s[i]? with
    | some c => if p c then k (i + 1) g else none
    | none => none
  | .seq a b, s, i, k, g => a.matchAt s i (fun j g' => b.matchAt s j k g') g
  | .alt a b, s, i, k, g =>
    match a.matchAt s i k g with
    | some r => some r
    | none => b.matchAt s i k g
  | .opt a, s, i, k, g =>
    match a.matchAt s i k g with
    | some r => some r
    | none => k i g
  | .plus p, s, i, k, g => firstSome (fun j => k (i + j) g) (descLens (clsRun p (s.drop i)))
  | .plusL p, s, i, k, g => firstSome (fun j => k (i + j) g) (ascLens (clsRun p (s.drop i)))
  | .starL p, s, i, k, g =>
    firstSome (fun j => k (i + j) g) (0 :: ascLens (clsRun p (s.drop i)))
  | .star p, s, i, k, g =>
    firstSome (fun j => k (i + j) g) (descLens (clsRun p (s.drop i)) ++ [0])
  | .grp n a, s, i, k, g => a.matchAt s i (fun j g' => k j ((n, i, j) :: g')) g
  | .bnd, s, i, k, g => if boundaryAt s i then k i g else none

/-- Leftmost match scanning start positions `i, i+1, …` (fuel-bounded). -/
def searchAux (r : Re) (s : Chars) : Nat → Nat → Option (Nat × Nat × Groups)
  | 0, _ => none
  | fuel + 1, i =>
    match r.matchAt s i (fun j g => some (j, g)) [] with
    | some (j, g) => some (i, j, g)
    | none => if i < s.length then searchAux r s fuel (i + 1) else none

/-- Python `re.search`: leftmost match, returning start, end and groups. -/
def reSearch (r : Re) (s : Chars) : Option (Nat × Nat × Groups) :=
  searchAux r s (s.length + 1) 0

/-- Python `re.search(...) is not None`. -/
def reTest (r : Re) (s : Chars) : Bool := (reSearch r s).isSome

/-- The slice `s[a:b]`. -/
def sliceStr (s : Chars) (a b : Nat) : Chars := (s.drop a).take (b - a)

/-- Python `match.group(n)` as a span lookup. -/
def grpSpan (g : Groups) (n : Nat) : Option (Nat × Nat) :=
  (g.find? (fun t => t.1 == n)).map (fun t => t.2)

/-- Python `match.group(n)` extracted from the subject string `s`
(empty when the group is absent, which never happens for the groups the
source extracts). -/
def grpStr (s : Chars) (g : Groups) (n : Nat) : Chars :=
  match grpSpan g n with
  | some (a, b) => sliceStr s a b
  | none => []

/-- Leftmost match with start position at least `i`. -/
def searchFrom (r : Re) (s : Chars) (i : Nat) : Option (Nat × Nat × Groups) :=
  searchAux r s (s.length + 1 - i) i

/-- Python `re.sub`, fuel-bounded: replace non-overlapping matches from left
to right, where `repl` builds the replacement from the subject and the
captured groups.  (All patterns the source substitutes match at least one
character, so the fuel `s.length + 1` is always sufficient.) -/
def reSubAux (r : Re) (repl : Chars → Groups → Chars) (s : Chars) :
    Nat → Nat → Chars
  | 0, i => s.drop i
  | fuel + 1, i =>
    match searchFrom r s i with
    | none => s.drop i
    | some (a, b, g) => sliceStr s i a ++ repl s g ++ reSubAux r repl s fuel b

/-- Python `re.sub(r, repl, s)`. -/
def reSub (r : Re) (repl : Chars → Groups → Chars) (s : Chars) : Chars :=
  reSubAux r repl s (s.length + 1) 0

/-- Sequence a list of regexes. -/
def reCat (l : List Re) : Re :=
  match l with
  | [] => .lit []
  | [r] => r
  | r :: rs => .seq r (reCat rs)

/-! ### The concrete patterns of `src/model/nlp2sql.py`

Patterns that the source matches with `re.IGNORECASE` (or against an already
lowercased subject) are written in lowercase here and are always run against
the lowercased subject; captured spans index the original string, which is
how the source preserves the original case of extracted groups. -/

/-- `\s+` -/
def wsP : Re := .plus wsChar

/-- `\w+`, also `[a-zA-Z0-9_]+` (the same ASCII class) -/
def wordP : Re := .plus wordChar

/-- `"` or `'` -/
def isQuote (c : Char) : Bool := c = '"' || c = '\''

/-- `[^"\']+` -/
def notQuoteP : Re := .plus (fun c => !isQuote c)

/-- `(?:"|\')?` -/
def optQuote : Re := .opt (.alt (.lit (str "\"")) (.lit (str "'")))

/-- `pre_process_query`: `what\s+famil(y|ies)|objects` -/
def famObjPreRe : Re :=
  .alt (reCat [.lit (str "what"), wsP, .lit (str "famil"),
               .grp 1 (.alt (.lit (str "y")) (.lit (str "ies")))])
       (.lit (str "objects"))

/-- `pre_process_query`: `counter\s+\w+` -/
def counterWordRe : Re := reCat [.lit (str "counter"), wsP, wordP]

/-- `pre_process_query`: `\bobject\b|\blte\b|\b[235]g\b` -/
def objLteGRe : Re :=
  .alt (reCat [.bnd, .lit (str "object"), .bnd])
    (.alt (reCat [.bnd, .lit (str "lte"), .bnd])
      (reCat [.bnd, .cls (fun c => c = '2' || c = '3' || c = '5'), .lit (str "g"), .bnd]))

/-- `pre_process_query`: `value|values|data` -/
def valueDataRe : Re :=
  .alt (.lit (str "value")) (.alt (.lit (str "values")) (.lit (str "data")))

/-- `pre_process_query`: `list\s+(?:all\s+)?counter(?:s|\s+ids?)\s+(?:in|from|of)\s+(\w+)` -/
def listCounterRe : Re :=
  reCat [.lit (str "list"), wsP, .opt (reCat [.lit (str "all"), wsP]),
         .lit (str "counter"),
         .alt (.lit (str "s")) (reCat [wsP, .lit (str "id"), .opt (.lit (str "s"))]),
         wsP, .alt (.lit (str "in")) (.alt (.lit (str "from")) (.lit (str "of"))),
         wsP, .grp 1 wordP]

/-- `handle_special_queries`: `what\s+famil(y|ies)|what\s+objects` -/
def famObjHsqRe : Re :=
  .alt (reCat [.lit (str "what"), wsP, .lit (str "famil"),
               .grp 1 (.alt (.lit (str "y")) (.lit (str "ies")))])
       (reCat [.lit (str "what"), wsP, .lit (str "objects")])

/-- `handle_special_queries`: `what\s+vendors|list\s+vendors` -/
def vendorsHsqRe : Re :=
  .alt (reCat [.lit (str "what"), wsP, .lit (str "vendors")])
       (reCat [.lit (str "list"), wsP, .lit (str "vendors")])

/-- `handle_special_queries`: `table\s+([a-zA-Z0-9_]+)` -/
def tableNameRe : Re := reCat [.lit (str "table"), wsP, .grp 1 wordP]

/-- `handle_special_queries`: the counter-columns pattern
`(?:list|show|what|get)\s+(?:all\s+)?(?:counter|counters|counter\s+ids?|counters\s+ids?)\s+(?:in|from|of)(?:\s+(?:this\s+)?table\s+)?([a-zA-Z0-9_]+)` -/
def counterColsRe : Re :=
  reCat [.alt (.lit (str "list"))
           (.alt (.lit (str "show")) (.alt (.lit (str "what")) (.lit (str "get")))),
         wsP, .opt (reCat [.lit (str "all"), wsP]),
         .alt (.lit (str "counter"))
           (.alt (.lit (str "counters"))
             (.alt (reCat [.lit (str "counter"), wsP, .lit (str "id"), .opt (.lit (str "s"))])
               (reCat [.lit (str "counters"), wsP, .lit (str "id"), .opt (.lit (str "s"))]))),
         wsP, .alt (.lit (str "in")) (.alt (.lit (str "from")) (.lit (str "of"))),
         .opt (reCat [wsP, .opt (reCat [.lit (str "this"), wsP]), .lit (str "table"), wsP]),
         .grp 1 wordP]

/-- `handle_special_queries`: the counters-for-object pattern
`(?:counters|metrics|kpis|performance|list\s+of\s+counters)\s+(?:for|of|on|covered\s+for)\s+(?:object\s+)?([a-zA-Z0-9_]+)` -/
def counterObjRe : Re :=
  reCat [.alt (.lit (str "counters"))
           (.alt (.lit (str "metrics"))
             (.alt (.lit (str "kpis"))
               (.alt (.lit (str "performance"))
                 (reCat [.lit (str "list"), wsP, .lit (str "of"), wsP, .lit (str "counters")])))),
         wsP, .alt (.lit (str "for"))
           (.alt (.lit (str "of")) (.alt (.lit (str "on")) (reCat [.lit (str "covered"), wsP, .lit (str "for")]))),
         wsP, .opt (reCat [.lit (str "object"), wsP]),
         .grp 1 wordP]

/-- `handle_special_queries`: the counter-value pattern
`(?:value|values|data|get)\s+(?:(?:of|for)\s+)?(?:counter\s+)?([a-zA-Z0-9_]+)\s+(?:for|on|over)\s+(?:object\s+)?(?:"|\')?([^"\']+)(?:"|\')?` -/
def counterValRe : Re :=
  reCat [.alt (.lit (str "value"))
           (.alt (.lit (str "values")) (.alt (.lit (str "data")) (.lit (str "get")))),
         wsP, .opt (reCat [.alt (.lit (str "of")) (.lit (str "for")), wsP]),
         .opt (reCat [.lit (str "counter"), wsP]),
         .grp 1 wordP, wsP,
         .alt (.lit (str "for")) (.alt (.lit (str "on")) (.lit (str "over"))),
         wsP, .opt (reCat [.lit (str "object"), wsP]),
         optQuote, .grp 2 notQuoteP, optQuote]

/-- `handle_special_queries`: the explicit counter-value pattern
`counter\s+([a-zA-Z0-9_]+)\s+(?:for|on|over)\s+(?:object\s+)?(?:"|\')?([^"\']+)(?:"|\')?` -/
def explicitValRe : Re :=
  reCat [.lit (str "counter"), wsP, .grp 1 wordP, wsP,
         .alt (.lit (str "for")) (.alt (.lit (str "on")) (.lit (str "over"))),
         wsP, .opt (reCat [.lit (str "object"), wsP]),
         optQuote, .grp 2 notQuoteP, optQuote]

/-- `generate_sql`: first explicit counter-value pattern
`get\s+(?:the\s+)?value\s+of\s+counter\s+\*?\*?([a-zA-Z0-9_]+)\*?\*?\s+(?:for|over)\s+object\s+(?:"|\')?([^"\']+)(?:"|\')?` -/
def genVal1Re : Re :=
  reCat [.lit (str "get"), wsP, .opt (reCat [.lit (str "the"), wsP]),
         .lit (str "value"), wsP, .lit (str "of"), wsP, .lit (str "counter"), wsP,
         .opt (.lit (str "*")), .opt (.lit (str "*")),
         .grp 1 wordP,
         .opt (.lit (str "*")), .opt (.lit (str "*")),
         wsP, .alt (.lit (str "for")) (.lit (str "over")),
         wsP, .lit (str "object"), wsP,
         optQuote, .grp 2 notQuoteP, optQuote]

/-- `generate_sql`: second explicit counter-value pattern
`value\s+of\s+(?:counter\s+)?([a-zA-Z0-9_]+)\s+(?:for|over)\s+(?:"|\')?([^"\']+)(?:"|\')?` -/
def genVal2Re : Re :=
  reCat [.lit (str "value"), wsP, .lit (str "of"), wsP,
         .opt (reCat [.lit (str "counter"), wsP]),
         .grp 1 wordP, wsP,
         .alt (.lit (str "for")) (.lit (str "over")),
         wsP, optQuote, .grp 2 notQuoteP, optQuote]

/-- `generate_sql` fallback: `(daily|hourly)_\w+` -/
def dailyHourlyRe : Re :=
  reCat [.grp 1 (.alt (.lit (str "daily")) (.lit (str "hourly"))), .lit (str "_"), wordP]

/-- code-fence extraction with `re.DOTALL`: ```` ```sql\n(.*?)``` ```` -/
def fenceSqlRe : Re :=
  reCat [.lit (str "```sql\n"), .grp 1 (.starL (fun _ => true)), .lit (str "```")]

/-- code-fence extraction with `re.DOTALL`: ```` ```\n(.*?)``` ```` -/
def fencePlainRe : Re :=
  reCat [.lit (str "```\n"), .grp 1 (.starL (fun _ => true)), .lit (str "```")]

/-- `fix_sql_query`: `\[[\w\s_]+\]` -/
def tagRe : Re :=
  reCat [.lit (str "["), .plus (fun c => wordChar c || wsChar c), .lit (str "]")]

/-- `fix_sql_query`: `SELECT\s+[\'"](SELECT.+?)[\'"]\s+AS` (case sensitive) -/
def selQuoteRe : Re :=
  reCat [.lit (str "SELECT"), wsP, .cls isQuote,
         .grp 1 (reCat [.lit (str "SELECT"), .plusL (fun c => c ≠ '\n')]),
         .cls isQuote, wsP, .lit (str "AS")]

/-- `fix_sql_query`: `<"?([^">]+)"?>` -/
def angleRe : Re :=
  reCat [.lit (str "<"), .opt (.lit (str "\"")),
         .grp 1 (.plus (fun c => !(c = '"' || c = '>'))),
         .opt (.lit (str "\"")), .lit (str ">")]

/-- `[a-z_]` -/
def lowUnd (c : Char) : Bool := c.isLower || c = '_'

/-- `fix_sql_query`: the dynamic-table concatenation pattern
`FROM\s+([a-z_]+)_\s*\|\|\s*\(SELECT\s+([a-z_]+)\s+FROM\s+([a-z_]+)\)` -/
def concatRe : Re :=
  reCat [.lit (str "FROM"), wsP, .grp 1 (.plus lowUnd), .lit (str "_"),
         .star wsChar, .lit (str "||"), .star wsChar,
         .lit (str "(SELECT"), wsP, .grp 2 (.plus lowUnd), wsP,
         .lit (str "FROM"), wsP, .grp 3 (.plus lowUnd), .lit (str ")")]

/-! ### Embedding of `src/model/nlp2sql.py` -/

/-- Is the optional previous character a word character? -/
def wordOpt : Option Char → Bool
  | some c => wordChar c
  | none => false

/-- Does `re.sub(r'\bkatana\b', …, q, flags=re.IGNORECASE)` match at the
head of `s`, given the character `prev` just before `s`?  The leading `\b`
holds iff `prev` is absent or not a word character (the matched text starts
with a word character), the literal matches case-insensitively, and the
trailing `\b` holds iff the string ends after the match or continues with a
non-word character. -/
def katanaHere (prev : Option Char) (s : Chars) : Bool :=
  !wordOpt prev && (lowerL (s.take 6) = str "katana") &&
    (match s[6]? with
     | some d => !wordChar d
     | none => true)

/-- The scanner of `re.sub(r'\bkatana\b', 'the platform', q, re.IGNORECASE)`:
left-to-right, non-overlapping, continuing after each replacement. -/
def subKatanaGo (prev : Option Char) (s : Chars) : Chars :=
  match s with
  | [] => []
  | c :: rest =>
    if katanaHere prev (c :: rest) then
      str "the platform" ++ subKatanaGo rest[4]? (rest.drop 5)
    else
      c :: subKatanaGo (some c) rest
termination_by s.length
decreasing_by
  · simp only [List.length_cons, List.length_drop]; omega
  · simp only [List.length_cons]; omega

/-- `re.sub(r'\bkatana\b', 'the platform', q, flags=re.IGNORECASE)`. -/
def subKatana (s : Chars) : Chars := subKatanaGo none s

/-- `pre_process_query` of `src/model/nlp2sql.py`: strip, rewrite `katana`,
then append at most one intent tag and exactly one time-resolution tag.
The `re.IGNORECASE` searches are modelled by matching the lowercase patterns
against the lowercased subject. -/
def pre_process_query (q : Chars) : Chars :=
  let q1 := subKatana (pyStrip q)
  let q2 :=
    if reTest famObjPreRe (lowerL q1) then q1 ++ str " [OBJECT_INFO]"
    else if containsL (lowerL q1) (str "vendor") then q1 ++ str " [VENDOR_INFO]"
    else if reTest counterWordRe (lowerL q1) && reTest objLteGRe (lowerL q1) then
      q1 ++ str " [COUNTER_INFO]"
    else if reTest valueDataRe (lowerL q1) && reTest counterWordRe (lowerL q1) then
      q1 ++ str " [COUNTER_VALUE]"
    else if reTest listCounterRe (lowerL q1) then q1 ++ str " [TABLE_COUNTERS]"
    else q1
  if containsL (lowerL q2) (str "hourly") then q2 ++ str " [USE_HOURLY]"
  else if containsL (lowerL q2) (str "detailed") || containsL (lowerL q2) (str "det") then
    q2 ++ str " [USE_DETAILED]"
  else q2 ++ str " [USE_DAILY]"

/-- The substitution stage of `fix_sql_query`: remove context tags, undo two
quoting artefacts, and rewrite the dynamic-table concatenation. -/
def fixSubs (sql : Chars) : Chars :=
  let s1 := reSub tagRe (fun _ _ => []) sql
  let s2 := reSub selQuoteRe (fun s g => grpStr s g 1) s1
  let s3 := reSub angleRe (fun s g => grpStr s g 1) s2
  if reTest concatRe s3 then
    reSub concatRe
      (fun s g => str "FROM " ++ grpStr s g 1 ++ str "_ || (SELECT " ++
        grpStr s g 2 ++ str " FROM " ++ grpStr s g 3 ++ str ")") s3
  else s3

/-- `fix_sql_query` of `src/model/nlp2sql.py`: the substitutions of
`fixSubs`, then append ` LIMIT 100;` (after stripping trailing semicolons)
when no `LIMIT` is present in the uppercased text. -/
def fix_sql_query (sql : Chars) : Chars :=
  let s4 := fixSubs sql
  if containsL (upperL s4) (str "LIMIT") then s4
  else rstripSemi s4 ++ str " LIMIT 100;"

/-- The fixed SQL answer for family/object questions. -/
def famSQL : Chars :=
  str "SELECT DISTINCT \"mapped_object_name\" FROM con_multivendors_counters_details LIMIT 50;"

/-- The fixed SQL answer for vendor questions. -/
def venSQL : Chars := str "SELECT vendor_id, vendor_name FROM vendors LIMIT 50;"

/-- The fallback SQL for counter questions naming a technology. -/
def counterDescSQL : Chars :=
  str "SELECT counter_id, counter_description FROM con_multivendors_counters_details LIMIT 50;"

/-- The `what columns … table T` answer of `handle_special_queries`. -/
def whatColsSQL (table_name : Chars) : Chars :=
  str "SELECT column_name FROM information_schema.columns WHERE table_name = '" ++
    table_name ++ str "' LIMIT 100;"

/-- The counter-columns answer of `handle_special_queries`. -/
def counterColsSQL (table_name : Chars) : Chars :=
  str "\n        SELECT column_name \n        FROM information_schema.columns \n        WHERE table_name = '" ++
    table_name ++
    str "'\n        AND column_name NOT IN (\n            'time', 'mapped_object_name', 'vendor_id',\n            'begintime', 'sk_object', 'duration', 'integrity'\n        )\n        ORDER BY ordinal_position\n        LIMIT 100;\n        "

/-- The counters-for-object answer of `handle_special_queries`. -/
def countersForObjSQL (object_name : Chars) : Chars :=
  str "\n        SELECT counter_id, counter_description\n        FROM con_multivendors_counters_details\n        WHERE mapped_object_name ILIKE '%" ++
    object_name ++ str "%'\n        LIMIT 100;\n        "

/-- The table-columns answer of the `generate_sql` exception fallback. -/
def fallbackTableSQL (table_name : Chars) : Chars :=
  str "\n                SELECT column_name \n                FROM information_schema.columns \n                WHERE table_name = '" ++
    table_name ++
    str "'\n                AND column_name NOT IN ('time', 'mapped_object_name', 'vendor_id') \n                LIMIT 100;\n                "

/-- The time-resolution choice `daily`/`hourly`/`detailed` computed (twice,
identically) by `handle_special_queries` and `generate_sql` from the
lowercased query. -/
def timeRes (query_lower : Chars) : Chars :=
  if containsL query_lower (str "hourly") then str "hourly"
  else if containsL query_lower (str "detailed") || containsL query_lower (str "det") then
    str "detailed"
  else str "daily"

/-- `get_counter_values` of `src/model/nlp2sql.py`. -/
def get_counter_values (object_name counter_id time_resolution : Chars) : Chars :=
  let resolution_prefix :=
    if lowerL time_resolution = str "daily" then str "daily_"
    else if lowerL time_resolution = str "hourly" then str "hourly_"
    else if lowerL time_resolution = str "detailed" then str "det_"
    else str "daily_"
  str "\n    -- Two-step query to first identify the table then get the counter values\n    WITH table_info AS (\n        SELECT tables_in_database\n        FROM con_multivendors_counters_details\n        WHERE mapped_object_name = '" ++
    object_name ++
    str "'\n        AND counter_id = '" ++ counter_id ++
    str "'\n        LIMIT 1\n    )\n    \n    SELECT \"begintime\", \"" ++ counter_id ++
    str "\"\n    FROM " ++ resolution_prefix ++
    str "nokia_common_40001  -- This table name would be dynamic in a full implementation\n    WHERE \"" ++
    counter_id ++ str "\" IS NOT NULL\n    LIMIT 50;\n    "

/-- The tail of `handle_special_queries` after the two direct patterns:
the schema lookup, counter-columns, counters-for-object and counter-value
special cases, in source order (the `what columns` case falls through when
`table\s+(\w+)` does not match). -/
def hsqSpecialTail (ql query : Chars) : Option Chars :=
  match
    (if containsL ql (str "what columns") && containsL ql (str "table") then
      reSearch tableNameRe ql
    else none) with
  | some (_, _, g) => some (whatColsSQL (grpStr ql g 1))
  | none =>
    match reSearch counterColsRe ql with
    | some (_, _, g) => some (counterColsSQL (lowerL (grpStr ql g 1)))
    | none =>
      match reSearch counterObjRe ql with
      | some (_, _, g) => some (countersForObjSQL (grpStr ql g 1))
      | none =>
        match reSearch counterValRe (lowerL query) with
        | some (_, _, g) =>
          let cid := grpStr query g 1
          let obj := grpStr query g 2
          match reSearch explicitValRe (lowerL query) with
          | some (_, _, g') =>
            some (get_counter_values (grpStr query g' 2) (grpStr query g' 1) (timeRes ql))
          | none => some (get_counter_values obj cid (timeRes ql))
        | none => none

/-- `handle_special_queries` of `src/model/nlp2sql.py`.  The two direct
patterns are checked first, in the insertion order of the pattern dict. -/
def handle_special_queries (query : Chars) : Option Chars :=
  let ql := pyStrip (lowerL query)
  if reTest famObjHsqRe ql then some famSQL
  else if reTest vendorsHsqRe ql then some venSQL
  else hsqSpecialTail ql query

/-- `get_optimized_examples` of `src/model/nlp2sql.py` (verbatim). -/
def get_optimized_examples : Chars :=
  str "\n# Objects and Families\nQ: What families do we have?\nA: SELECT DISTINCT \"mapped_object_name\" FROM con_multivendors_counters_details LIMIT 50;\n\n# Counters for Object\nQ: What counters for LTE_MAC?\nA: SELECT counter_id, counter_description FROM con_multivendors_counters_details WHERE mapped_object_name ILIKE '%LTE_MAC%' LIMIT 50;\n\n# Counter value for specific object\nQ: What is the value of counter PRBUsageDL for LTE_MAC?\nA:\nWITH table_info AS (\n    SELECT counter_id, tables_in_database\n    FROM con_multivendors_counters_details\n    WHERE mapped_object_name ILIKE '%LTE_MAC%'\n    AND counter_id = 'PRBUsageDL'\n    LIMIT 1\n)\nSELECT time, \"PRBUsageDL\", mapped_object_name\nFROM daily_nokia_common_8005\nWHERE time >= date_trunc('month', CURRENT_DATE)\nAND time < date_trunc('month', CURRENT_DATE) + interval '7 days'\nAND \"PRBUsageDL\" IS NOT NULL\nLIMIT 100;\n\n# Vendors\nQ: What vendors?\nA: SELECT vendor_id, vendor_name FROM vendors LIMIT 50;\n\n# Schema Lookup\nQ: Columns in daily_nokia_common_8005?\nA: SELECT column_name FROM information_schema.columns WHERE table_name = 'daily_nokia_common_8005' LIMIT 100;\n\n# List counter IDs from specific table (counter ID columns)\nQ: List all counter IDs in daily_nokia_common_8005\nA: SELECT column_name FROM information_schema.columns \n   WHERE table_name = 'daily_nokia_common_8005' \n   AND column_name NOT IN ('time', 'mapped_object_name', 'vendor_id')\n   LIMIT 100;\n"

/-- The prompt produced by `get_sql_template().format(...)`: the template of
`get_sql_template` with `schema_info`, `examples` and `question`
interpolated. -/
def formatPrompt (question schema_info examples : Chars) : Chars :=
  str "\nYou are an SQL expert for the Katana telecom platform.\n\n## Essential Schema:\n" ++
  schema_info ++
  str "\n\n## Instructions:\n- Always quote column names\n- Always include a LIMIT clause (max 100)\n- Use ILIKE for case-insensitive matching\n- For objects/families, query mapped_object_name in con_multivendors_counters_details\n- For vendors, query the vendors table\n- For counters, query counter_id, counter_description in con_multivendors_counters_details WITHOUT time filters\n- For counter values, use the multi-step approach with CTEs:\n  1. First get tables_in_database using a CTE\n  2. Then use that to construct the table name in the main query\n  3. Only apply time filters to the actual data tables, not metadata tables\n- For listing counter IDs from a specific table, query information_schema.columns for column names\n  excluding common non-counter columns like 'time', 'mapped_object_name', and 'vendor_id'\n\n## Example Queries:\n" ++
  examples ++
  str "\n\nQuestion: \"" ++ question ++ str "\"\n\nReturn only valid SQL code:\n"

/-- The environment of `generate_sql`: the module-level llama.cpp model
(`llm.invoke`, which may raise — `.error` — and whose sampling parameters
`max_tokens` and `temperature` are absorbed into the oracle) and the
schema text returned by `get_essential_schema()` (a DB- or fallback-derived
string). -/
structure NlpEnv where
  llm : Chars → Except Chars Chars
  schema_info : Chars

/-- The `except` fallback chain at the end of `generate_sql`: used when
`llm.invoke` raises or when fence extraction fails (`.group(1)` on `None`).
The first branch requires both keywords and a `(daily|hourly)_\w+` match, in
which case the second, identical search always succeeds and `group(0)` is
the matched table name. -/
def llmFallback (question : Chars) : Chars :=
  let ql := lowerL question
  match
    (if containsL ql (str "list") && containsL ql (str "counter") then
      reSearch dailyHourlyRe ql
    else none) with
  | some (a, b, _) => fallbackTableSQL (sliceStr ql a b)
  | none =>
    if containsL ql (str "object") || containsL ql (str "famil") then famSQL
    else if containsL ql (str "vendor") then venSQL
    else if containsL ql (str "counter") &&
        (containsL ql (str "lte") || containsL ql (str "2g") || containsL ql (str "3g") ||
         containsL ql (str "4g") || containsL ql (str "5g")) then
      counterDescSQL
    else famSQL

/-- The counter-value return of `generate_sql`'s explicit patterns: groups
are extracted from the original question (case preserved), a trailing quote
is dropped if present, and the time resolution is read off the lowercased
stripped question. -/
def genValReturn (question query_lower : Chars) (g : Groups) : Chars :=
  let counter_id := grpStr question g 1
  let object_name := grpStr question g 2
  let object_name :=
    if object_name.getLast? = some '"' || object_name.getLast? = some '\'' then
      object_name.dropLast
    else object_name
  get_counter_values object_name counter_id (timeRes query_lower)

/-- The tail of `generate_sql`'s `try` block after a successful `llm.invoke`:
strip the result, extract a code fence if present (a fence marker without a
full fenced block makes `.group(1)` raise, landing in the fallback), fix the
SQL and validate it. -/
def afterLlm (question result : Chars) : Chars :=
  let sql := pyStrip result
  let extracted : Option Chars :=
    if containsL sql (str "```sql") then
      match reSearch fenceSqlRe sql with
      | some (_, _, g) => some (pyStrip (grpStr sql g 1))
      | none => none
    else if containsL sql (str "```") then
      match reSearch fencePlainRe sql with
      | some (_, _, g) => some (pyStrip (grpStr sql g 1))
      | none => none
    else some sql
  match extracted with
  | none => llmFallback question
  | some sql =>
    let fixed_sql := fix_sql_query sql
    if upperL (pyStrip fixed_sql) = str "" || upperL (pyStrip fixed_sql) = str "LIMIT 100;" ||
        upperL (pyStrip fixed_sql) = str "SELECT;" || upperL (pyStrip fixed_sql) = str "SELECT *;" ||
        upperL (pyStrip fixed_sql) = str "SELECT * FROM;" then
      famSQL
    else fixed_sql

/-- `generate_sql` of `src/model/nlp2sql.py`.  Special-case queries first,
then the two explicit counter-value patterns, then the language model with
its fallback chain. -/
def generate_sql (env : NlpEnv) (question : Chars) : Chars :=
  match handle_special_queries question with
  | some special_query_sql => special_query_sql
  | none =>
    let query_lower := pyStrip (lowerL question)
    match reSearch genVal1Re (lowerL question) with
    | some (_, _, g) => genValReturn question query_lower g
    | none =>
      match reSearch genVal2Re (lowerL question) with
      | some (_, _, g) => genValReturn question query_lower g
      | none =>
        let cleaned_question := pre_process_query question
        let prompt := formatPrompt cleaned_question env.schema_info get_optimized_examples
        match env.llm prompt with
        | .ok result => afterLlm question result
        | .error _ => llmFallback question

/-! ### Embedding of `src/app/api/query_router.py` -/

/-- A result row: the `dict(zip(colnames, row))` of the source, with cell
values rendered as strings. -/
abbrev Row := List (Chars × Chars)

/-- The database environment: what `psycopg2.connect` would do (`some e`
models a raised exception with message `e`) and what
`cursor.execute` + `fetchall` + `description` would yield for a statement. -/
structure DBEnv where
  connectError : Option Chars
  exec : Chars → Except Chars (List Row)

/-- The destructive keywords checked by `cached_execute_query`. -/
def destructiveKeywords : List Chars :=
  [str "drop", str "delete", str "update", str "insert", str "alter", str "truncate"]

/-- `any(keyword in sql.lower() for keyword in [...])`. -/
def isDestructive (sql : Chars) : Bool :=
  destructiveKeywords.any (fun k => containsL (lowerL sql) k)

/-- Result of one uncached execution: the returned pair, plus (for analysis)
the statement actually handed to `cursor.execute`, if any. -/
structure ExecOut where
  results : Option (List Row)
  error : Option Chars
  executed : Option Chars

/-- The statement actually executed: `sql`, with ` LIMIT {limit};` appended
(after stripping trailing semicolons) when `"limit" not in sql.lower()`. -/
def execStmt (sql : Chars) (limit : Int) : Chars :=
  if containsL (lowerL sql) (str "limit") then sql
  else rstripSemi sql ++ str " LIMIT " ++ str (toString limit) ++ str ";"

/-- The body of `cached_execute_query` (the function wrapped by
`lru_cache`): connect, reject destructive SQL (the raised `ValueError` is
caught by the function's own `except`, turning into an error string), append
`LIMIT` if missing, execute.  Any exception yields `(None, str(e))`. -/
def execBody (env : DBEnv) (sql : Chars) (limit : Int) : ExecOut :=
  match env.connectError with
  | some e => ⟨none, some e, none⟩
  | none =>
    if isDestructive sql then
      ⟨none, some (str "Query not allowed: contains destructive SQL operations"), none⟩
    else
      match env.exec (execStmt sql limit) with
      | .ok results => ⟨some results, none, some (execStmt sql limit)⟩
      | .error e => ⟨none, some e, some (execStmt sql limit)⟩

/-- Cache keys of the `lru_cache` wrapper: the argument pair. -/
abbrev CacheKey := Chars × Int

/-- Cached values: the returned `(results, error)` pair. -/
abbrev CacheVal := Option (List Row) × Option Chars

/-- The `functools.lru_cache(maxsize=50)` state, most recently used first. -/
abbrev CacheState := List (CacheKey × CacheVal)

/-- Cache lookup. -/
def cacheLookup (st : CacheState) (k : CacheKey) : Option CacheVal :=
  (st.find? (fun e => e.1 == k)).map (·.2)

/-- Result of a (possibly cached) call: value, new cache state, and the
statement handed to `cursor.execute`, if any. -/
structure CachedOut where
  val : CacheVal
  st : CacheState
  executed : Option Chars

/-- `cached_execute_query` with its `@lru_cache(maxsize=50)` wrapper: a hit
returns the stored pair (moving the key to most-recent, executing nothing);
a miss runs the body and stores the result, evicting beyond 50 entries. -/
def cached_execute_query (env : DBEnv) (st : CacheState) (sql : Chars) (limit : Int) :
    CachedOut :=
  match cacheLookup st (sql, limit) with
  | some v => ⟨v, ((sql, limit), v) :: st.filter (fun e => !(e.1 == (sql, limit))), none⟩
  | none =>
    let r := execBody env sql limit
    ⟨(r.results, r.error), (((sql, limit), (r.results, r.error)) :: st).take 50, r.executed⟩

/-- `execute_query`: despite its docstring ("non-cached version"), it just
forwards to `cached_execute_query`. -/
def execute_query (env : DBEnv) (st : CacheState) (sql : Chars) (limit : Int) : CachedOut :=
  cached_execute_query env st sql limit

/-- The `METRICS` dict.  Response times are modelled as exact rationals. -/
structure Metrics where
  total_queries : Nat
  successful_queries : Nat
  failed_queries : Nat
  avg_response_time : ℚ
  total_response_time : ℚ

/-- The initial `METRICS` values. -/
def METRICS_init : Metrics := ⟨0, 0, 0, 0, 0⟩

/-- `update_metrics`: bump the counters, accumulate the response time, and
recompute the average as `total_response_time / total_queries`. -/
def update_metrics (m : Metrics) (success : Bool) (response_time : ℚ) : Metrics :=
  let m1 : Metrics := { m with total_queries := m.total_queries + 1 }
  let m2 : Metrics :=
    if success then { m1 with successful_queries := m1.successful_queries + 1 }
    else { m1 with failed_queries := m1.failed_queries + 1 }
  let m3 : Metrics := { m2 with total_response_time := m2.total_response_time + response_time }
  { m3 with avg_response_time := m3.total_response_time / (m3.total_queries : ℚ) }

/-- Python `round(x, 2)` on rationals.  (Python rounds halves to even while
`round` here rounds halves up; no claim depends on the tie-breaking rule.) -/
def round2 (x : ℚ) : ℚ := ((round (x * 100) : ℤ) : ℚ) / 100

/-- The denominator `max(total_queries, 1)` of the `/metrics` success rate. -/
def successRateDenom (m : Metrics) : Nat := max m.total_queries 1

/-- The dict returned by the `/metrics` endpoint. -/
structure MetricsReport where
  total_queries : Nat
  successful_queries : Nat
  failed_queries : Nat
  avg_response_time_ms : ℚ
  success_rate : ℚ

/-- `get_metrics` of `src/app/api/query_router.py`. -/
def get_metrics (m : Metrics) : MetricsReport :=
  ⟨m.total_queries, m.successful_queries, m.failed_queries,
   round2 (m.avg_response_time * 1000),
   round2 ((m.successful_queries : ℚ) / ((successRateDenom m : ℚ)) * 100)⟩

/-- The `meta` dict of a `/api/query` response.  All the elapsed-time
readings of one request are abstracted into the single parameter `rt`. -/
structure Meta where
  response_time_ms : ℚ
  katana_platform : Chars

/-- Build the `meta` dict from the elapsed time. -/
def mkMeta (rt : ℚ) : Meta := ⟨round2 (rt * 1000), str "v1.0"⟩

/-- The three response shapes `run_nlp_query` can return: the JSON success
dict, the CSV `Response`, and the error dict with its `query`, `sql`,
`error`, `suggestion` and `meta` fields. -/
inductive QueryResponse where
  | json : (query sql : Chars) → (results : List Row) → (count : Nat) → Meta → QueryResponse
  | csv : (content : Chars) → QueryResponse
  | errorResp : (query sql error suggestion : Chars) → Meta → QueryResponse

/-- `str(row[col])` (rows built by the source always carry every column). -/
def rowGet (row : Row) (col : Chars) : Chars :=
  ((row.find? (fun e => e.1 == col)).map (·.2)).getD []

/-- The CSV body built by `run_nlp_query` for `format=csv`. -/
def csvContent (results : List Row) : Chars :=
  match results with
  | [] => str "No results found."
  | r0 :: _ =>
    let colnames := r0.map (·.1)
    (List.intercalate (str ",") colnames ++ str "\n") ++
      (results.map (fun row =>
        List.intercalate (str ",") (colnames.map (fun col => rowGet row col)) ++ str "\n")).flatten

/-- The suggestion attached to a failed SQL generation. -/
def genFailSuggestion : Chars :=
  str "Try simplifying your query or being more specific about what you're looking for."

/-- The suggestion computed from a database error message. -/
def errorSuggestion (error : Chars) : Chars :=
  if containsL error (str "relation") && containsL error (str "does not exist") then
    str "The table referenced doesn't exist. Try different object names or time ranges."
  else if containsL error (str "column") && containsL error (str "does not exist") then
    str "The counter ID may be incorrect or not available for this object."
  else str ""

/-- Everything one `/api/query` request produces: the response, the new
cache state, the new metrics, and the statement handed to the cursor (if
any). -/
structure RunOut where
  resp : QueryResponse
  st : CacheState
  metrics : Metrics
  executed : Option Chars

/-- The execution phase of `run_nlp_query`, entered once a statement `sql`
is in hand (from `generate_sql` or the keyword fallback): execute through
the cache, answer the error dict on failure, otherwise format the results
as CSV or JSON. -/
def runExecPhase (env : DBEnv) (st : CacheState) (m : Metrics) (q : Chars) (limit : Int)
    (format : Chars) (rt : ℚ) (sql : Chars) : RunOut :=
  let out := execute_query env st sql limit
  match out.val.2 with
  | some error =>
    ⟨.errorResp q sql error (errorSuggestion error) (mkMeta rt),
     out.st, update_metrics m false rt, out.executed⟩
  | none =>
    let results := (out.val.1).getD []
    let m2 := update_metrics m true rt
    if lowerL format = str "csv" then ⟨.csv (csvContent results), out.st, m2, out.executed⟩
    else ⟨.json q sql results results.length (mkMeta rt), out.st, m2, out.executed⟩

/-- `run_nlp_query` of `src/app/api/query_router.py`.  The SQL-generation
step (`generate_sql(q)`, which the source wraps in its own `try`/`except`)
is the parameter `gen`; `.error e` models a raised exception with message
`e`, answered by the keyword fallback or the error dict.  The body's other
operations cannot raise in this model, so the outer `except` has no
counterpart. -/
def run_nlp_query (gen : Chars → Except Chars Chars) (env : DBEnv) (st : CacheState)
    (m : Metrics) (q : Chars) (limit : Int) (format : Chars) (rt : ℚ) : RunOut :=
  let sqlRes : Except Chars Chars :=
    match gen q with
    | .ok sql => .ok sql
    | .error e =>
      if containsL (lowerL q) (str "object") || containsL (lowerL q) (str "famil") then
        .ok famSQL
      else if containsL (lowerL q) (str "vendor") then .ok venSQL
      else .error e
  match sqlRes with
  | .error e =>
    ⟨.errorResp q (str "SQL generation failed") (e.take 100) genFailSuggestion (mkMeta rt),
     st, update_metrics m false rt, none⟩
  | .ok sql => runExecPhase env st m q limit format rt sql

/-! ### Basic lemmas about the string utilities -/

theorem isSub_cons (p : Chars) (a : Char) (l : Chars) :
    isSub p (a :: l) = (p.isPrefixOf (a :: l) || isSub p l) := by
  rw [isSub]
  by_cases h : p.isPrefixOf (a :: l) <;> simp [h]

theorem isSub_iff (p s : Chars) : isSub p s = true ↔ p <:+: s := by
  induction s with
  | nil =>
    rw [isSub]
    constructor
    · intro h
      have : p.isPrefixOf [] = true := by
        by_cases hp : p.isPrefixOf ([] : Chars) <;> simp_all
      exact (List.isPrefixOf_iff_prefix.mp this).isInfix
    · intro h
      have : p = [] := List.eq_nil_of_infix_nil h
      simp [this, List.isPrefixOf]
  | cons a l ih =>
    rw [isSub_cons, List.infix_cons_iff]
    constructor
    · intro h
      rcases Bool.or_eq_true_iff.mp h with h | h
      · exact Or.inl (List.isPrefixOf_iff_prefix.mp h)
      · exact Or.inr (ih.mp h)
    · intro h
      rcases h with h | h
      · exact Bool.or_eq_true_iff.mpr (Or.inl (List.isPrefixOf_iff_prefix.mpr h))
      · exact Bool.or_eq_true_iff.mpr (Or.inr (ih.mpr h))

theorem isSub_false_iff (p s : Chars) : isSub p s = false ↔ ¬ p <:+: s := by
  rw [← isSub_iff]
  cases h : isSub p s <;> simp

theorem isSub_append_right (p x z : Chars) (h : isSub p z = true) :
    isSub p (x ++ z) = true := by
  rw [isSub_iff] at h ⊢
  obtain ⟨u, v, huv⟩ := h
  exact ⟨x ++ u, v, by rw [← huv]; simp⟩

theorem isSub_append_left (p x z : Chars) (h : isSub p x = true) :
    isSub p (x ++ z) = true := by
  rw [isSub_iff] at h ⊢
  obtain ⟨u, v, huv⟩ := h
  exact ⟨u, v ++ z, by rw [← huv]; simp⟩

/-- Decomposition of an occurrence in an appended string: the pattern lies in
the left part, in the right part, or straddles the seam with a nonempty
prefix ending `x` and the matching nonempty suffix starting `y`. -/
theorem infix_append_cases {p x y : Chars} (h : p <:+: x ++ y) :
    p <:+: x ∨ p <:+: y ∨
      ∃ k, 0 < k ∧ k < p.length ∧ (p.take k) <:+ x ∧ (p.drop k) <+: y := by
  obtain ⟨s, t, hst⟩ := h
  have h1 : s ++ (p ++ t) = x ++ y := by rw [← hst]; simp
  rcases List.append_eq_append_iff.mp h1 with ⟨a, hx, ha⟩ | ⟨c, hs, hy⟩
  · -- x = s ++ a  and  p ++ t = a ++ y
    rcases List.append_eq_append_iff.mp ha with ⟨b, hab, ht⟩ | ⟨c, hp, hyc⟩
    · -- a = p ++ b : p is inside x
      exact Or.inl ⟨s, b, by simp [hx, hab]⟩
    · -- p = a ++ c, y = c ++ t with a a suffix-part of x, c a prefix of y
      by_cases hc : c = []
      · subst hc
        rw [List.append_nil] at hp
        exact Or.inl ⟨s, [], by rw [hx, hp, List.append_nil]⟩
      · by_cases hazero : a = []
        · subst hazero
          rw [List.nil_append] at hp
          exact Or.inr (Or.inl ⟨[], t, by simp [hyc, hp]⟩)
        · refine Or.inr (Or.inr ⟨a.length, ?_, ?_, ?_, ?_⟩)
          · cases a with
            | nil => exact absurd rfl hazero
            | cons _ _ => simp
          · rw [hp, List.length_append]
            cases c with
            | nil => exact absurd rfl hc
            | cons _ _ => simp only [List.length_cons]; omega
          · rw [hp, List.take_left]
            exact ⟨s, by rw [hx]⟩
          · rw [hp, List.drop_left]
            exact ⟨t, by rw [hyc]⟩
  · -- s = x ++ c and y = c ++ (p ++ t): p is inside y
    exact Or.inr (Or.inl ⟨c, t, by rw [hy]; simp⟩)

/-- Appending `y` does not change occurrence of `p` when `p` does not occur
in `y` and no nonempty suffix of `p` is a prefix of `y`. -/
theorem isSub_append_no_seam_right (p x y : Chars) (hy : isSub p y = false)
    (hseam : ∀ k < p.length, 0 < k → (p.drop k).isPrefixOf y = false) :
    isSub p (x ++ y) = isSub p x := by
  cases hx : isSub p x with
  | true => exact isSub_append_left p x y hx
  | false =>
    rw [isSub_false_iff] at hx hy
    rw [isSub_false_iff]
    intro h
    rcases infix_append_cases h with h | h | ⟨k, hk0, hkl, _, hpre⟩
    · exact hx h
    · exact hy h
    · have h2 := hseam k hkl hk0
      have h3 : (p.drop k).isPrefixOf y = true := List.isPrefixOf_iff_prefix.mpr hpre
      rw [h2] at h3
      cases h3

/-- Prepending `x` does not change occurrence of `p` when `p` does not occur
in `x` and no nonempty prefix of `p` is a suffix of `x`. -/
theorem isSub_append_no_seam_left (p x y : Chars) (hx : isSub p x = false)
    (hseam : ∀ k < p.length, 0 < k → (p.take k).isSuffixOf x = false) :
    isSub p (x ++ y) = isSub p y := by
  cases hy : isSub p y with
  | true => exact isSub_append_right p x y hy
  | false =>
    rw [isSub_false_iff] at hx hy
    rw [isSub_false_iff]
    intro h
    rcases infix_append_cases h with h | h | ⟨k, hk0, hkl, hsuf, _⟩
    · exact hx h
    · exact hy h
    · have h2 := hseam k hkl hk0
      have h3 : (p.take k).isSuffixOf x = true := List.isSuffixOf_iff_suffix.mpr hsuf
      rw [h2] at h3
      cases h3

theorem isSub_reverse (p l : Chars) : isSub p l.reverse = isSub p.reverse l := by
  cases h : isSub p.reverse l with
  | true =>
    rw [isSub_iff] at h ⊢
    rw [← List.reverse_infix] at h
    simpa using h
  | false =>
    rw [isSub_false_iff] at h ⊢
    intro hc
    apply h
    have h2 : p.reverse <:+: (l.reverse).reverse := by
      rw [List.reverse_infix]
      exact hc
    simpa using h2

/-! ### Character-level lemmas about ASCII case folding -/

theorem char_toNat_ofNat {n : Nat} (h : n < 55296) : (Char.ofNat n).toNat = n := by
  rw [Char.ofNat, dif_pos (Or.inl h)]
  simp [Char.ofNatAux, Char.toNat, UInt32.toNat]

theorem char_isUpper_toNat (c : Char) :
    c.isUpper = (decide (65 ≤ c.toNat) && decide (c.toNat ≤ 90)) := by
  have h1 : ((65 : UInt32) ≤ c.val) = (65 ≤ c.toNat) := by rw [UInt32.le_def, BitVec.le_def]; rfl
  have h2 : (c.val ≤ (90 : UInt32)) = (c.toNat ≤ 90) := by rw [UInt32.le_def, BitVec.le_def]; rfl
  rw [Char.isUpper]
  simp only [ge_iff_le, h1, h2]

theorem char_isLower_toNat (c : Char) :
    c.isLower = (decide (97 ≤ c.toNat) && decide (c.toNat ≤ 122)) := by
  have h1 : ((97 : UInt32) ≤ c.val) = (97 ≤ c.toNat) := by rw [UInt32.le_def, BitVec.le_def]; rfl
  have h2 : (c.val ≤ (122 : UInt32)) = (c.toNat ≤ 122) := by rw [UInt32.le_def, BitVec.le_def]; rfl
  rw [Char.isLower]
  simp only [ge_iff_le, h1, h2]

theorem char_isDigit_toNat (c : Char) :
    c.isDigit = (decide (48 ≤ c.toNat) && decide (c.toNat ≤ 57)) := by
  have h1 : ((48 : UInt32) ≤ c.val) = (48 ≤ c.toNat) := by rw [UInt32.le_def, BitVec.le_def]; rfl
  have h2 : (c.val ≤ (57 : UInt32)) = (c.toNat ≤ 57) := by rw [UInt32.le_def, BitVec.le_def]; rfl
  rw [Char.isDigit]
  simp only [ge_iff_le, h1, h2]

/-- `toLower` after `toUpper` is `toLower`. -/
theorem toLower_toUpper (c : Char) : c.toUpper.toLower = c.toLower := by
  rw [Char.toUpper]
  by_cases h : 97 ≤ c.toNat ∧ c.toNat ≤ 122
  · rw [if_pos h]
    have hv : (Char.ofNat (c.toNat - 32)).toNat = c.toNat - 32 := char_toNat_ofNat (by omega)
    rw [Char.toLower, Char.toLower, hv, if_pos (by omega), if_neg (by omega)]
    have h32 : c.toNat - 32 + 32 = c.toNat := by omega
    rw [h32, Char.ofNat_toNat]
  · rw [if_neg h]

/-- `toLower` preserves `\w` membership. -/
theorem wordChar_toLower (c : Char) : wordChar c.toLower = wordChar c := by
  rw [Char.toLower]
  by_cases h : 65 ≤ c.toNat ∧ c.toNat ≤ 90
  · rw [if_pos h]
    have hv : (Char.ofNat (c.toNat + 32)).toNat = c.toNat + 32 := char_toNat_ofNat (by omega)
    have hlhs : wordChar (Char.ofNat (c.toNat + 32)) = true := by
      rw [wordChar, Char.isAlphanum, Char.isAlpha, char_isLower_toNat, hv]
      have : (decide (97 ≤ c.toNat + 32) && decide (c.toNat + 32 ≤ 122)) = true := by
        rw [decide_eq_true (by omega), decide_eq_true (by omega)]; rfl
      rw [this]
      simp
    have hrhs : wordChar c = true := by
      rw [wordChar, Char.isAlphanum, Char.isAlpha, char_isUpper_toNat]
      have : (decide (65 ≤ c.toNat) && decide (c.toNat ≤ 90)) = true := by
        rw [decide_eq_true h.1, decide_eq_true h.2]; rfl
      rw [this]
      simp
    rw [hlhs, hrhs]
  · rw [if_neg h]

/-- `toLower` fixes whitespace characters. -/
theorem toLower_ws (c : Char) (h : wsChar c = true) : c.toLower = c := by
  rw [wsChar] at h
  simp only [Bool.or_eq_true, decide_eq_true_eq] at h
  rcases h with ((((h | h) | h) | h) | h) | h <;> subst h <;> decide

/-- Case-insensitive containment transfers from the uppercase check of
`fix_sql_query` to the lowercase check of `cached_execute_query`. -/
theorem isSub_lower_of_upper (p q s : Chars) (hpq : lowerL p = q)
    (h : isSub p (upperL s) = true) : isSub q (lowerL s) = true := by
  rw [isSub_iff] at h ⊢
  obtain ⟨u, v, huv⟩ := h
  refine ⟨lowerL u, lowerL v, ?_⟩
  have h2 : lowerL (u ++ p ++ v) = lowerL (upperL s) := by rw [huv]
  have h3 : lowerL (upperL s) = lowerL s := by
    simp only [lowerL, upperL, List.map_map]
    exact List.map_congr_left (fun a _ => toLower_toUpper a)
  rw [← h3]
  rw [← h2]
  simp [lowerL, hpq.symm]

/-! ### Preservation of substring tests through `strip` and the `katana`
substitution (used to phrase the tagging conditions on the original
question) -/

theorem isSub_lower_dropWhile_ws (p : Chars) (hne : p ≠ [])
    (hp : ∀ c ∈ p, wsChar c = false) :
    ∀ q : Chars, isSub p (lowerL (q.dropWhile wsChar)) = isSub p (lowerL q) := by
  intro q
  induction q with
  | nil => rfl
  | cons c q' ih =>
    rw [List.dropWhile_cons]
    by_cases hw : wsChar c = true
    · rw [if_pos hw, ih]
      have hl : lowerL (c :: q') = c.toLower :: lowerL q' := rfl
      rw [hl, isSub_cons]
      have hpre : p.isPrefixOf (c.toLower :: lowerL q') = false := by
        cases p with
        | nil => exact absurd rfl hne
        | cons a p' =>
          rw [toLower_ws c hw, List.isPrefixOf_cons₂]
          have hac : (a == c) = false := by
            have ha := hp a (List.mem_cons_self a p')
            by_cases h : a = c
            · rw [h] at ha; rw [ha] at hw; cases hw
            · simp [h]
          rw [hac, Bool.false_and]
      rw [hpre, Bool.false_or]
    · rw [if_neg hw]

theorem isSub_lower_pyStrip (p : Chars) (hne : p ≠ [])
    (hp : ∀ c ∈ p, wsChar c = false) (q : Chars) :
    isSub p (lowerL (pyStrip q)) = isSub p (lowerL q) := by
  have hrne : p.reverse ≠ [] := by
    intro h
    exact hne (by simpa using congrArg List.reverse h)
  have hrp : ∀ c ∈ p.reverse, wsChar c = false := by
    intro c hc
    exact hp c (List.mem_reverse.mp hc)
  rw [pyStrip]
  rw [show lowerL ((((q.dropWhile wsChar).reverse).dropWhile wsChar).reverse) =
      (lowerL (((q.dropWhile wsChar).reverse).dropWhile wsChar)).reverse from
    List.map_reverse _ _]
  rw [isSub_reverse]
  rw [isSub_lower_dropWhile_ws p.reverse hrne hrp]
  rw [show lowerL ((q.dropWhile wsChar).reverse) = (lowerL (q.dropWhile wsChar)).reverse from
    List.map_reverse _ _]
  rw [isSub_reverse, List.reverse_reverse]
  exact isSub_lower_dropWhile_ws p hne hp q

/-- While the previous character is a word character, the `katana` scanner
copies characters verbatim, so short prefixes made of word characters are
unaffected. -/
theorem subKatanaGo_nil (prev : Option Char) : subKatanaGo prev [] = [] := by
  rw [subKatanaGo]

theorem isPrefixOf_lower_subKatanaGo (p : Chars) (hp : ∀ c ∈ p, wordChar c = true) :
    ∀ (rest : Chars) (c : Char), wordChar c = true →
      p.isPrefixOf (lowerL (subKatanaGo (some c) rest)) = p.isPrefixOf (lowerL rest) := by
  induction p with
  | nil => intro rest c _; simp [List.isPrefixOf]
  | cons a p' ih =>
    intro rest c hc
    match rest with
    | [] => rw [subKatanaGo_nil]
    | c' :: r' =>
      have hno : katanaHere (some c) (c' :: r') = false := by
        rw [katanaHere]
        simp [wordOpt, hc]
      rw [subKatanaGo, if_neg (by rw [hno]; exact Bool.false_ne_true)]
      have hl1 : lowerL (c' :: subKatanaGo (some c') r') =
          c'.toLower :: lowerL (subKatanaGo (some c') r') := rfl
      have hl2 : lowerL (c' :: r') = c'.toLower :: lowerL r' := rfl
      rw [hl1, hl2, List.isPrefixOf_cons₂, List.isPrefixOf_cons₂]
      by_cases hac : (a == c'.toLower) = true
      · have ha : a = c'.toLower := eq_of_beq hac
        have hwc' : wordChar c' = true := by
          rw [← wordChar_toLower c', ← ha]
          exact hp a (List.mem_cons_self a p')
        rw [ih (fun d hd => hp d (List.mem_cons_of_mem a hd)) r' c' hwc']
      · rw [show (a == c'.toLower) = false from by simpa using hac]
        simp

/-- The `katana` substitution does not change occurrences of a pattern made
of word characters that does not overlap the literal `katana` or the
replacement `the platform`. -/
theorem isSub_lower_subKatanaGo (p : Chars)
    (hword : ∀ c ∈ p, wordChar c = true)
    (hA : isSub p (str "the platform") = false)
    (hK : isSub p (str "katana") = false)
    (hseamA : ∀ k < p.length, 0 < k → (p.take k).isSuffixOf (str "the platform") = false)
    (hseamK : ∀ k < p.length, 0 < k → (p.take k).isSuffixOf (str "katana") = false) :
    ∀ (s : Chars) (prev : Option Char),
      isSub p (lowerL (subKatanaGo prev s)) = isSub p (lowerL s) := by
  suffices H : ∀ n (s : Chars), s.length ≤ n → ∀ prev,
      isSub p (lowerL (subKatanaGo prev s)) = isSub p (lowerL s) by
    intro s prev
    exact H s.length s le_rfl prev
  intro n
  induction n with
  | zero =>
    intro s hs prev
    have hnil : s = [] := List.eq_nil_of_length_eq_zero (Nat.le_zero.mp hs)
    subst hnil
    rw [subKatanaGo_nil]
  | succ n ihn =>
    intro s hs prev
    match s with
    | [] => rw [subKatanaGo_nil]
    | c :: rest =>
      rw [subKatanaGo]
      by_cases hm : katanaHere prev (c :: rest) = true
      · rw [if_pos hm]
        have hk6 : lowerL ((c :: rest).take 6) = str "katana" := by
          rw [katanaHere] at hm
          simp only [Bool.and_eq_true, decide_eq_true_eq] at hm
          exact hm.1.2
        have hlepl : lowerL (str "the platform") = str "the platform" := by decide
        have hlapp : lowerL (str "the platform" ++ subKatanaGo rest[4]? (rest.drop 5)) =
            str "the platform" ++ lowerL (subKatanaGo rest[4]? (rest.drop 5)) := by
          rw [show ∀ a b : Chars, lowerL (a ++ b) = lowerL a ++ lowerL b from
            fun a b => List.map_append _ a b, hlepl]
        rw [hlapp]
        rw [isSub_append_no_seam_left p _ _ hA hseamA]
        have hdlen : (rest.drop 5).length ≤ n := by
          have h1 : rest.length ≤ n := by
            have := hs
            simp only [List.length_cons] at this
            omega
          rw [List.length_drop]
          omega
        rw [ihn (rest.drop 5) hdlen rest[4]?]
        -- right-hand side: split the input at index 6
        have hsplit : (c :: rest) = (c :: rest).take 6 ++ (c :: rest).drop 6 :=
          (List.take_append_drop 6 (c :: rest)).symm
        have hrhs : isSub p (lowerL (c :: rest)) = isSub p (lowerL (rest.drop 5)) := by
          conv_lhs => rw [hsplit]
          rw [show ∀ a b : Chars, lowerL (a ++ b) = lowerL a ++ lowerL b from
            fun a b => List.map_append _ a b, hk6]
          rw [isSub_append_no_seam_left p _ _ hK hseamK]
          rfl
        rw [hrhs]
      · rw [if_neg hm]
        have hrest : rest.length ≤ n := by
          have := hs
          simp only [List.length_cons] at this
          omega
        have hl1 : lowerL (c :: subKatanaGo (some c) rest) =
            c.toLower :: lowerL (subKatanaGo (some c) rest) := rfl
        have hl2 : lowerL (c :: rest) = c.toLower :: lowerL rest := rfl
        rw [hl1, hl2, isSub_cons, isSub_cons, ihn rest hrest (some c)]
        have hpre : p.isPrefixOf (c.toLower :: lowerL (subKatanaGo (some c) rest)) =
            p.isPrefixOf (c.toLower :: lowerL rest) := by
          cases p with
          | nil => rfl
          | cons a p' =>
            rw [List.isPrefixOf_cons₂, List.isPrefixOf_cons₂]
            by_cases hac : (a == c.toLower) = true
            · have ha : a = c.toLower := eq_of_beq hac
              have hwc : wordChar c = true := by
                rw [← wordChar_toLower c, ← ha]
                exact hword a (List.mem_cons_self a p')
              rw [isPrefixOf_lower_subKatanaGo p'
                (fun d hd => hword d (List.mem_cons_of_mem a hd)) rest c hwc]
            · rw [show (a == c.toLower) = false from by simpa using hac]
              simp
        rw [hpre]

theorem lowerL_append (a b : Chars) : lowerL (a ++ b) = lowerL a ++ lowerL b :=
  List.map_append _ a b

theorem hourly_bare (q : Chars) :
    isSub (str "hourly") (lowerL (subKatana (pyStrip q))) =
    isSub (str "hourly") (lowerL q) := by
  rw [subKatana,
    isSub_lower_subKatanaGo (str "hourly") (by decide) (by decide) (by decide)
      (by decide) (by decide),
    isSub_lower_pyStrip (str "hourly") (by decide) (by decide)]

theorem det_bare (q : Chars) :
    isSub (str "det") (lowerL (subKatana (pyStrip q))) =
    isSub (str "det") (lowerL q) := by
  rw [subKatana,
    isSub_lower_subKatanaGo (str "det") (by decide) (by decide) (by decide)
      (by decide) (by decide),
    isSub_lower_pyStrip (str "det") (by decide) (by decide)]

theorem hourly_tag (q t : Chars) (ht : isSub (str "hourly") (lowerL t) = false)
    (hseamT : ∀ k < (str "hourly").length, 0 < k →
      ((str "hourly").drop k).isPrefixOf (lowerL t) = false) :
    isSub (str "hourly") (lowerL (subKatana (pyStrip q) ++ t)) =
    isSub (str "hourly") (lowerL q) := by
  rw [lowerL_append, isSub_append_no_seam_right _ _ _ ht hseamT, hourly_bare]

theorem det_tag (q t : Chars) (ht : isSub (str "det") (lowerL t) = false)
    (hseamT : ∀ k < (str "det").length, 0 < k →
      ((str "det").drop k).isPrefixOf (lowerL t) = false) :
    isSub (str "det") (lowerL (subKatana (pyStrip q) ++ t)) =
    isSub (str "det") (lowerL q) := by
  rw [lowerL_append, isSub_append_no_seam_right _ _ _ ht hseamT, det_bare]

/-- `'detailed' in s or 'det' in s` is just `'det' in s`. -/
theorem detailed_collapse (s : Chars) :
    (isSub (str "detailed") s || isSub (str "det") s) = isSub (str "det") s := by
  cases h : isSub (str "det") s with
  | true => simp [h]
  | false =>
    have hd : isSub (str "detailed") s = false := by
      cases hdd : isSub (str "detailed") s with
      | false => rfl
      | true =>
        exfalso
        rw [isSub_iff] at hdd
        rw [isSub_false_iff] at h
        exact h ((show (str "det") <+: (str "detailed") by decide).isInfix.trans hdd)
    rw [hd]
    rfl

/-- The five intent tags of `pre_process_query`. -/
def intentTags : List Chars :=
  [str " [OBJECT_INFO]", str " [VENDOR_INFO]", str " [COUNTER_INFO]",
   str " [COUNTER_VALUE]", str " [TABLE_COUNTERS]"]

/-- The time-resolution tag the claim predicts from the original question:
` [USE_HOURLY]` when the lowercased question contains `hourly`, otherwise
` [USE_DETAILED]` when it contains `detailed` or `det`, otherwise
` [USE_DAILY]`. -/
def timeTagFor (q : Chars) : Chars :=
  if containsL (lowerL q) (str "hourly") then str " [USE_HOURLY]"
  else if containsL (lowerL q) (str "detailed") || containsL (lowerL q) (str "det") then
    str " [USE_DETAILED]"
  else str " [USE_DAILY]"

theorem time_if_shape (x ht dt dl : Chars) (c d : Bool) :
    (if c then x ++ ht else if d then x ++ dt else x ++ dl) =
    x ++ (if c then ht else if d then dt else dl) := by
  by_cases hc : c <;> by_cases hd : d <;> simp [hc, hd]

/-- **C6.**  `pre_process_query` appends at most one intent tag and exactly
one time-resolution tag, the latter chosen from the lowercased original
question by the priority `hourly`, then `detailed`/`det`, then daily; the
result always ends in the time-resolution tag. -/
theorem C6_pre_process_query_tags (q : Chars) :
    ∃ body intent, (intent = [] ∨ intent ∈ intentTags) ∧
      pre_process_query q = body ++ intent ++ timeTagFor q := by
  have htime : ∀ t : Chars,
      isSub (str "hourly") (lowerL t) = false →
      isSub (str "det") (lowerL t) = false →
      (∀ k < (str "hourly").length, 0 < k →
        ((str "hourly").drop k).isPrefixOf (lowerL t) = false) →
      (∀ k < (str "det").length, 0 < k →
        ((str "det").drop k).isPrefixOf (lowerL t) = false) →
      (if isSub (str "hourly") (lowerL (subKatana (pyStrip q) ++ t)) then
        str " [USE_HOURLY]"
       else if isSub (str "detailed") (lowerL (subKatana (pyStrip q) ++ t)) ||
          isSub (str "det") (lowerL (subKatana (pyStrip q) ++ t)) then
        str " [USE_DETAILED]"
       else str " [USE_DAILY]") = timeTagFor q := by
    intro t h1 h2 h3 h4
    rw [detailed_collapse, hourly_tag q t h1 h3, det_tag q t h2 h4]
    rw [timeTagFor]
    simp only [containsL, detailed_collapse]
  have htime0 :
      (if isSub (str "hourly") (lowerL (subKatana (pyStrip q))) then
        str " [USE_HOURLY]"
       else if isSub (str "detailed") (lowerL (subKatana (pyStrip q))) ||
          isSub (str "det") (lowerL (subKatana (pyStrip q))) then
        str " [USE_DETAILED]"
       else str " [USE_DAILY]") = timeTagFor q := by
    rw [detailed_collapse, hourly_bare, det_bare]
    rw [timeTagFor]
    simp only [containsL, detailed_collapse]
  rw [pre_process_query]
  simp only [containsL]
  by_cases h1 : reTest famObjPreRe (lowerL (subKatana (pyStrip q))) = true
  · rw [if_pos h1, time_if_shape,
      htime (str " [OBJECT_INFO]") (by decide) (by decide) (by decide) (by decide)]
    exact ⟨subKatana (pyStrip q), str " [OBJECT_INFO]", Or.inr (by simp [intentTags]), rfl⟩
  · rw [if_neg h1]
    by_cases h2 : isSub (str "vendor") (lowerL (subKatana (pyStrip q))) = true
    · rw [if_pos h2, time_if_shape,
        htime (str " [VENDOR_INFO]") (by decide) (by decide) (by decide) (by decide)]
      exact ⟨subKatana (pyStrip q), str " [VENDOR_INFO]", Or.inr (by simp [intentTags]), rfl⟩
    · rw [if_neg h2]
      by_cases h3 : (reTest counterWordRe (lowerL (subKatana (pyStrip q))) &&
          reTest objLteGRe (lowerL (subKatana (pyStrip q)))) = true
      · rw [if_pos h3, time_if_shape,
          htime (str " [COUNTER_INFO]") (by decide) (by decide) (by decide) (by decide)]
        exact ⟨subKatana (pyStrip q), str " [COUNTER_INFO]", Or.inr (by simp [intentTags]), rfl⟩
      · rw [if_neg h3]
        by_cases h4 : (reTest valueDataRe (lowerL (subKatana (pyStrip q))) &&
            reTest counterWordRe (lowerL (subKatana (pyStrip q)))) = true
        · rw [if_pos h4, time_if_shape,
            htime (str " [COUNTER_VALUE]") (by decide) (by decide) (by decide) (by decide)]
          exact ⟨subKatana (pyStrip q), str " [COUNTER_VALUE]",
            Or.inr (by simp [intentTags]), rfl⟩
        · rw [if_neg h4]
          by_cases h5 : reTest listCounterRe (lowerL (subKatana (pyStrip q))) = true
          · rw [if_pos h5, time_if_shape,
              htime (str " [TABLE_COUNTERS]") (by decide) (by decide) (by decide) (by decide)]
            exact ⟨subKatana (pyStrip q), str " [TABLE_COUNTERS]",
              Or.inr (by simp [intentTags]), rfl⟩
          · rw [if_neg h5]
            refine ⟨subKatana (pyStrip q), [], Or.inl rfl, ?_⟩
            have hsh : ∀ x ht dt dl : Chars, ∀ c d : Bool,
                (if c then x ++ ht else if d then x ++ dt else x ++ dl) =
                x ++ [] ++ (if c then ht else if d then dt else dl) := by
              intro x ht dt dl c d
              by_cases hc : c <;> by_cases hd : d <;> simp [hc, hd]
            rw [hsh, htime0]

/-- Shared: the output of `fix_sql_query` always contains `limit`
case-insensitively. -/
theorem fix_sql_query_limit (sql : Chars) :
    isSub (str "limit") (lowerL (fix_sql_query sql)) = true := by
  rw [fix_sql_query]
  by_cases h : containsL (upperL (fixSubs sql)) (str "LIMIT") = true
  · rw [if_pos h]
    exact isSub_lower_of_upper (str "LIMIT") (str "limit") (fixSubs sql) (by decide) h
  · rw [if_neg h]
    rw [show lowerL (rstripSemi (fixSubs sql) ++ str " LIMIT 100;") =
        lowerL (rstripSemi (fixSubs sql)) ++ lowerL (str " LIMIT 100;") from
      lowerL_append _ _]
    exact isSub_append_right _ _ _ (by decide)

/-- **C5.**  `fix_sql_query` always produces text containing `LIMIT`
(case-insensitively): when the input after the substitutions lacks `LIMIT`,
trailing semicolons are stripped and ` LIMIT 100;` is appended; when it
already contains `LIMIT`, the text is returned unchanged. -/
theorem C5_fix_sql_query_limit (sql : Chars) :
    isSub (str "limit") (lowerL (fix_sql_query sql)) = true ∧
    (containsL (upperL (fixSubs sql)) (str "LIMIT") = true →
      fix_sql_query sql = fixSubs sql) ∧
    (containsL (upperL (fixSubs sql)) (str "LIMIT") = false →
      fix_sql_query sql = rstripSemi (fixSubs sql) ++ str " LIMIT 100;") := by
  refine ⟨fix_sql_query_limit sql, ?_, ?_⟩
  · intro h
    rw [fix_sql_query, if_pos h]
  · intro h
    rw [fix_sql_query, if_neg (by rw [h]; exact Bool.false_ne_true)]

/-- **C5, witness.**  The two branches at concrete inputs. -/
theorem C5_fix_sql_query_limit_witness :
    fix_sql_query (str "SELECT * FROM t;") =
      str "SELECT * FROM t LIMIT 100;" ∧
    fix_sql_query (str "SELECT a FROM b LIMIT 7;") = str "SELECT a FROM b LIMIT 7;" ∧
    isSub (str "limit") (lowerL (fix_sql_query (str "SELECT * FROM t;"))) = true := by
  refine ⟨?_, ?_, (C5_fix_sql_query_limit (str "SELECT * FROM t;")).1⟩
  · rw [(C5_fix_sql_query_limit (str "SELECT * FROM t;")).2.2 (by decide)]
    decide
  · rw [(C5_fix_sql_query_limit (str "SELECT a FROM b LIMIT 7;")).2.1 (by decide)]
    decide

/-! ### Claims about the execution cache and the metrics -/

/-- The two legal shapes of a `cached_execute_query` return value. -/
def cacheValWF (v : CacheVal) : Bool :=
  (v.1.isSome && v.2.isNone) || (v.1.isNone && v.2.isSome)

/-- Every value stored in the cache has a legal shape. -/
def cacheWF (st : CacheState) : Bool := st.all (fun e => cacheValWF e.2)

theorem cacheValWF_iff (v : CacheVal) :
    cacheValWF v = true ↔
      (∃ rows, v = (some rows, none)) ∨ (∃ e, v = (none, some e)) := by
  obtain ⟨r, e⟩ := v
  cases r <;> cases e <;> simp [cacheValWF]

theorem execBody_shape (env : DBEnv) (sql : Chars) (limit : Int) :
    cacheValWF ((execBody env sql limit).results, (execBody env sql limit).error) = true := by
  rw [execBody]
  cases env.connectError with
  | some e => rfl
  | none =>
    by_cases hd : isDestructive sql = true
    · rw [if_pos hd]
      rfl
    · rw [if_neg hd]
      cases henv : env.exec (execStmt sql limit) <;> rfl

/-- **C2.**  On a well-formed cache, `cached_execute_query` returns exactly
one of `(results, None)` or `(None, error)`, never both components present
and never both absent, and it keeps the cache well formed. -/
theorem C2_cached_execute_query_shape (env : DBEnv) (st : CacheState) (sql : Chars)
    (limit : Int) (hwf : cacheWF st = true) :
    ((∃ rows, (cached_execute_query env st sql limit).val = (some rows, none)) ∨
      (∃ e, (cached_execute_query env st sql limit).val = (none, some e))) ∧
    cacheWF (cached_execute_query env st sql limit).st = true := by
  rw [cached_execute_query]
  cases hl : cacheLookup st (sql, limit) with
  | some v =>
    have hv : cacheValWF v = true := by
      rw [cacheLookup] at hl
      cases hf : st.find? (fun e => e.1 == (sql, limit)) with
      | none => rw [hf] at hl; cases hl
      | some e =>
        rw [hf] at hl
        have hl2 : e.2 = v := by simpa using hl
        have hm := List.mem_of_find?_eq_some hf
        have := (List.all_eq_true.mp hwf) e hm
        rw [← hl2]
        exact this
    refine ⟨(cacheValWF_iff v).mp hv, ?_⟩
    rw [cacheWF, List.all_eq_true]
    intro x hx
    rcases List.mem_cons.mp hx with hx | hx
    · rw [hx]
      exact hv
    · exact (List.all_eq_true.mp hwf) x (List.mem_of_mem_filter hx)
  | none =>
    refine ⟨(cacheValWF_iff _).mp (execBody_shape env sql limit), ?_⟩
    rw [cacheWF, List.all_eq_true]
    intro x hx
    have hx2 := List.mem_of_mem_take hx
    rcases List.mem_cons.mp hx2 with hx3 | hx3
    · rw [hx3]
      exact execBody_shape env sql limit
    · exact (List.all_eq_true.mp hwf) x hx3

/-- **C2, witness.** -/
theorem C2_cached_execute_query_shape_witness :
    cacheWF [] = true ∧
    ((∃ rows, (cached_execute_query ⟨none, fun _ => .ok []⟩ [] (str "SELECT 1 LIMIT 1;") 100).val
        = (some rows, none)) ∨
      (∃ e, (cached_execute_query ⟨none, fun _ => .ok []⟩ [] (str "SELECT 1 LIMIT 1;") 100).val
        = (none, some e))) :=
  ⟨rfl, (C2_cached_execute_query_shape ⟨none, fun _ => .ok []⟩ [] (str "SELECT 1 LIMIT 1;")
    100 rfl).1⟩

/-- **C9.**  `execute_query` is definitionally `cached_execute_query`: every
call, cache effects included, is identical. -/
theorem C9_execute_query_is_cached (env : DBEnv) (st : CacheState) (sql : Chars)
    (limit : Int) :
    execute_query env st sql limit = cached_execute_query env st sql limit := rfl

/-- **C8.**  A statement whose lowercased text contains a destructive
keyword is never handed to `cursor.execute`, and (when the connection
succeeds and the pair is not already cached) the call returns
`(None, 'Query not allowed: contains destructive SQL operations')`.  The
test is a pure substring check, so harmless statements mentioning such a
word are rejected too. -/
theorem C8_destructive_rejected (env : DBEnv) (st : CacheState) (sql : Chars) (limit : Int)
    (hd : isDestructive sql = true) :
    (cached_execute_query env st sql limit).executed = none ∧
    (cacheLookup st (sql, limit) = none → env.connectError = none →
      (cached_execute_query env st sql limit).val =
        (none, some (str "Query not allowed: contains destructive SQL operations"))) := by
  rw [cached_execute_query]
  cases hl : cacheLookup st (sql, limit) with
  | some v => exact ⟨rfl, fun h => by cases h⟩
  | none =>
    constructor
    · show (execBody env sql limit).executed = none
      rw [execBody]
      cases env.connectError with
      | some e => rfl
      | none => rw [if_pos hd]
    · intro _ hconn
      show ((execBody env sql limit).results, (execBody env sql limit).error) = _
      rw [execBody, hconn]
      rw [if_pos hd]

/-- **C8, witness.**  A destructive statement and a harmless `SELECT`
mentioning a column called `dropped_calls` are both rejected without
executing. -/
theorem C8_destructive_rejected_witness :
    isDestructive (str "DROP TABLE vendors;") = true ∧
    isDestructive (str "SELECT dropped_calls FROM daily_stats LIMIT 5;") = true ∧
    (cached_execute_query ⟨none, fun _ => .ok []⟩ []
      (str "SELECT dropped_calls FROM daily_stats LIMIT 5;") 100).executed = none ∧
    (cached_execute_query ⟨none, fun _ => .ok []⟩ []
      (str "SELECT dropped_calls FROM daily_stats LIMIT 5;") 100).val =
      (none, some (str "Query not allowed: contains destructive SQL operations")) := by
  have h := C8_destructive_rejected ⟨none, fun _ => .ok []⟩ []
    (str "SELECT dropped_calls FROM daily_stats LIMIT 5;") 100 (by decide)
  exact ⟨by decide, by decide, h.1, h.2 rfl rfl⟩

theorem length_filter_lt_of_mem {α : Type} (l : List α) (a : α) (p : α → Bool)
    (ha : a ∈ l) (hp : p a = false) : (l.filter p).length < l.length := by
  induction l with
  | nil => cases ha
  | cons x t ih =>
    rw [List.filter_cons]
    by_cases hx : p x = true
    · rw [if_pos hx]
      rcases List.mem_cons.mp ha with h | h
      · rw [← h] at hx
        rw [hp] at hx
        cases hx
      · have := ih h
        simp only [List.length_cons]
        omega
    · rw [if_neg hx]
      have := List.length_filter_le p t
      simp only [List.length_cons]
      omega

/-- **C3, counterexample.**  The result cache is not single-entry: after two
calls with different statements it holds two entries, and a third call whose
key differs from the most recent one is served from the cache (nothing is
handed to the cursor), contradicting the claimed re-execution. -/
theorem C3_counterexample_not_single_entry :
    ((cached_execute_query ⟨none, fun _ => .ok []⟩
        ((cached_execute_query ⟨none, fun _ => .ok []⟩ [] (str "SELECT 1 LIMIT 1;") 100).st)
        (str "SELECT 2 LIMIT 1;") 100).st).length = 2 ∧
    (cached_execute_query ⟨none, fun _ => .ok []⟩
        ((cached_execute_query ⟨none, fun _ => .ok []⟩
          ((cached_execute_query ⟨none, fun _ => .ok []⟩ [] (str "SELECT 1 LIMIT 1;") 100).st)
          (str "SELECT 2 LIMIT 1;") 100).st)
        (str "SELECT 1 LIMIT 1;") 100).executed = none :=
  ⟨rfl, rfl⟩

/-- **C3, amended.**  The memoization is an LRU cache of capacity 50: a
cache within capacity stays within capacity, a miss executes the body, and a
call whose `(sql, limit)` key is among the (up to 50) cached keys returns
the stored pair and executes nothing. -/
theorem C3_amended_lru_50 (env : DBEnv) (st : CacheState) (sql : Chars) (limit : Int)
    (h50 : st.length ≤ 50) :
    (cached_execute_query env st sql limit).st.length ≤ 50 ∧
    (cacheLookup st (sql, limit) = none →
      (cached_execute_query env st sql limit).executed = (execBody env sql limit).executed) ∧
    (∀ v, cacheLookup st (sql, limit) = some v →
      (cached_execute_query env st sql limit).executed = none ∧
      (cached_execute_query env st sql limit).val = v) := by
  rw [cached_execute_query]
  cases hl : cacheLookup st (sql, limit) with
  | some v =>
    refine ⟨?_, ?_, ?_⟩
    case refine_2 => intro h; cases h
    case refine_3 =>
      intro v' hv'
      injection hv' with h
      exact ⟨rfl, by rw [h]⟩
    have hfind : ∃ e, st.find? (fun x => x.1 == (sql, limit)) = some e := by
      rw [cacheLookup] at hl
      cases hf : st.find? (fun x => x.1 == (sql, limit)) with
      | none => rw [hf] at hl; cases hl
      | some e => exact ⟨e, rfl⟩
    obtain ⟨e, hf⟩ := hfind
    have hm := List.mem_of_find?_eq_some hf
    have hpe := List.find?_some hf
    have hlt : (st.filter (fun x => !(x.1 == (sql, limit)))).length < st.length :=
      length_filter_lt_of_mem st e _ hm (by rw [hpe]; rfl)
    simp only [List.length_cons]
    omega
  | none =>
    refine ⟨?_, fun _ => rfl, fun v' hv' => by cases hv'⟩
    have := List.length_take 50
      (((sql, limit), ((execBody env sql limit).results, (execBody env sql limit).error)) :: st)
    simp only [CachedOut.st]
    rw [this]
    omega

/-- **C3, amended, witness.** -/
theorem C3_amended_lru_50_witness :
    ([] : CacheState).length ≤ 50 ∧
    (cached_execute_query ⟨none, fun _ => .ok []⟩ [] (str "SELECT 1 LIMIT 1;") 100).st.length ≤ 50 ∧
    (cached_execute_query ⟨none, fun _ => .ok []⟩ [] (str "SELECT 1 LIMIT 1;") 100).executed =
      (execBody ⟨none, fun _ => .ok []⟩ (str "SELECT 1 LIMIT 1;") 100).executed := by
  have h := C3_amended_lru_50 ⟨none, fun _ => .ok []⟩ [] (str "SELECT 1 LIMIT 1;") 100
    (by decide)
  exact ⟨by decide, h.1, h.2.1 rfl⟩

/-- The `METRICS` state after a sequence of `update_metrics` calls, starting
from the initial values. -/
def applyMetrics (l : List (Bool × ℚ)) : Metrics :=
  l.foldl (fun m u => update_metrics m u.1 u.2) METRICS_init

theorem update_metrics_total_split (m : Metrics) (s : Bool) (rt : ℚ)
    (h : m.total_queries = m.successful_queries + m.failed_queries) :
    (update_metrics m s rt).total_queries =
      (update_metrics m s rt).successful_queries + (update_metrics m s rt).failed_queries := by
  cases s <;> simp [update_metrics] <;> omega

theorem applyMetrics_total_split (l : List (Bool × ℚ)) :
    (applyMetrics l).total_queries =
      (applyMetrics l).successful_queries + (applyMetrics l).failed_queries := by
  rw [applyMetrics]
  suffices H : ∀ m : Metrics, m.total_queries = m.successful_queries + m.failed_queries →
      (l.foldl (fun m u => update_metrics m u.1 u.2) m).total_queries =
        (l.foldl (fun m u => update_metrics m u.1 u.2) m).successful_queries +
        (l.foldl (fun m u => update_metrics m u.1 u.2) m).failed_queries by
    exact H METRICS_init rfl
  induction l with
  | nil => intro m h; exact h
  | cons u t ih =>
    intro m h
    exact ih (update_metrics m u.1 u.2) (update_metrics_total_split m u.1 u.2 h)

/-- **C10.**  After every `update_metrics` call the counters satisfy
`total = successful + failed` and `avg = total_time / total` with a positive
total; and the `/metrics` success rate divides by `max(total_queries, 1)`,
which is positive even before any query. -/
theorem C10_metrics_invariants :
    (∀ (l : List (Bool × ℚ)) (u : Bool × ℚ),
      (applyMetrics (l ++ [u])).total_queries =
        (applyMetrics (l ++ [u])).successful_queries +
        (applyMetrics (l ++ [u])).failed_queries ∧
      0 < (applyMetrics (l ++ [u])).total_queries ∧
      (applyMetrics (l ++ [u])).avg_response_time =
        (applyMetrics (l ++ [u])).total_response_time /
          ((applyMetrics (l ++ [u])).total_queries : ℚ)) ∧
    (∀ m : Metrics, 0 < successRateDenom m) ∧
    (∀ m : Metrics, (get_metrics m).success_rate =
      round2 ((m.successful_queries : ℚ) / ((successRateDenom m : ℚ)) * 100)) := by
  refine ⟨?_, ?_, fun m => rfl⟩
  · intro l u
    refine ⟨applyMetrics_total_split (l ++ [u]), ?_, ?_⟩
    · have happ : applyMetrics (l ++ [u]) = update_metrics (applyMetrics l) u.1 u.2 := by
        rw [applyMetrics, applyMetrics, List.foldl_append]
        rfl
      rw [happ]
      cases u.1 <;> simp [update_metrics]
    · have happ : applyMetrics (l ++ [u]) = update_metrics (applyMetrics l) u.1 u.2 := by
        rw [applyMetrics, applyMetrics, List.foldl_append]
        rfl
      rw [happ]
      cases u.1 <;> simp [update_metrics]
  · intro m
    rw [successRateDenom]
    omega

/-! ### C7: the two direct patterns of `handle_special_queries` -/

/-- **C7, counterexample.**  A question matching both direct patterns: the
vendors pattern matches its lowercased, stripped text, yet `generate_sql`
returns the family/objects SQL (the family pattern is checked first), not
the vendors SQL. -/
theorem C7_counterexample_overlap :
    reTest vendorsHsqRe (pyStrip (lowerL (str "What objects? list vendors"))) = true ∧
    generate_sql ⟨fun _ => Except.error [], []⟩ (str "What objects? list vendors") = famSQL ∧
    famSQL ≠ venSQL :=
  ⟨rfl, rfl, by decide⟩

/-- **C7, amended.**  For every question and any language model: if the
lowercased, stripped text matches the family/objects pattern, `generate_sql`
returns the fixed family SQL; if it does not but the vendors pattern
matches, `generate_sql` returns the fixed vendors SQL.  In both cases the
result is the same for every model oracle, i.e. the model is never
consulted. -/
theorem C7_amended_direct_patterns (env : NlpEnv) (q : Chars) :
    (reTest famObjHsqRe (pyStrip (lowerL q)) = true → generate_sql env q = famSQL) ∧
    (reTest famObjHsqRe (pyStrip (lowerL q)) = false →
      reTest vendorsHsqRe (pyStrip (lowerL q)) = true → generate_sql env q = venSQL) := by
  constructor
  · intro h
    simp [generate_sql, handle_special_queries, h]
  · intro h1 h2
    simp [generate_sql, handle_special_queries, h1, h2]

/-- **C7, amended, witness.** -/
theorem C7_amended_direct_patterns_witness :
    reTest famObjHsqRe (pyStrip (lowerL (str "What objects do we have?"))) = true ∧
    generate_sql ⟨fun _ => Except.error [], []⟩ (str "What objects do we have?") = famSQL ∧
    reTest famObjHsqRe (pyStrip (lowerL (str "list vendors"))) = false ∧
    reTest vendorsHsqRe (pyStrip (lowerL (str "list vendors"))) = true ∧
    generate_sql ⟨fun _ => Except.error [], []⟩ (str "list vendors") = venSQL := by
  refine ⟨by decide, ?_, by decide, by decide, ?_⟩
  · exact (C7_amended_direct_patterns ⟨fun _ => Except.error [], []⟩
      (str "What objects do we have?")).1 (by decide)
  · exact (C7_amended_direct_patterns ⟨fun _ => Except.error [], []⟩
      (str "list vendors")).2 (by decide) (by decide)

/-! ### C4: the generated statement always carries a LIMIT and is executed
verbatim -/

theorem get_counter_values_limit (o c t : Chars) :
    isSub (str "limit") (lowerL (get_counter_values o c t)) = true := by
  rw [get_counter_values]
  rw [lowerL_append]
  exact isSub_append_right _ _ _ (by decide)

theorem hsqSpecialTail_limit (ql query sql : Chars)
    (h : hsqSpecialTail ql query = some sql) :
    isSub (str "limit") (lowerL sql) = true := by
  rw [hsqSpecialTail] at h
  split at h
  · -- what-columns branch
    injection h with h
    rw [← h, whatColsSQL, lowerL_append]
    exact isSub_append_right _ _ _ (by decide)
  · split at h
    · -- counter-columns branch
      injection h with h
      rw [← h, counterColsSQL, lowerL_append]
      exact isSub_append_right _ _ _ (by decide)
    · split at h
      · -- counters-for-object branch
        injection h with h
        rw [← h, countersForObjSQL, lowerL_append]
        exact isSub_append_right _ _ _ (by decide)
      · split at h
        · split at h
          · injection h with h
            rw [← h]
            exact get_counter_values_limit _ _ _
          · injection h with h
            rw [← h]
            exact get_counter_values_limit _ _ _
        · cases h

theorem handle_special_queries_limit (q sql : Chars)
    (h : handle_special_queries q = some sql) :
    isSub (str "limit") (lowerL sql) = true := by
  rw [handle_special_queries] at h
  split at h
  · injection h with h
    rw [← h]
    decide
  · split at h
    · injection h with h
      rw [← h]
      decide
    · exact hsqSpecialTail_limit _ _ _ h

theorem llmFallback_limit (q : Chars) :
    isSub (str "limit") (lowerL (llmFallback q)) = true := by
  rw [llmFallback]
  split
  · rw [fallbackTableSQL, lowerL_append]
    exact isSub_append_right _ _ _ (by decide)
  · split
    · decide
    · split
      · decide
      · split
        · decide
        · decide

theorem afterLlm_limit (question result : Chars) :
    isSub (str "limit") (lowerL (afterLlm question result)) = true := by
  rw [afterLlm]
  split
  · exact llmFallback_limit question
  · dsimp only
    split
    · decide
    · exact fix_sql_query_limit _

theorem genValReturn_limit (question ql : Chars) (g : Groups) :
    isSub (str "limit") (lowerL (genValReturn question ql g)) = true := by
  rw [genValReturn]
  exact get_counter_values_limit _ _ _

/-- Shared: every statement `generate_sql` can produce contains `limit`
case-insensitively. -/
theorem generate_sql_limit (env : NlpEnv) (q : Chars) :
    isSub (str "limit") (lowerL (generate_sql env q)) = true := by
  rw [generate_sql]
  split
  · next sql h => exact handle_special_queries_limit q sql h
  · split
    · exact genValReturn_limit _ _ _
    · split
      · exact genValReturn_limit _ _ _
      · dsimp only
        split
        · exact afterLlm_limit _ _
        · exact llmFallback_limit _

/-- The `sql` field a response reports, when it has one (the CSV response
does not repeat the statement). -/
def sqlReported : QueryResponse → Option Chars
  | .json _ sql _ _ _ => some sql
  | .errorResp _ sql _ _ _ => some sql
  | .csv _ => none

theorem cached_executed_shape (db : DBEnv) (st : CacheState) (s : Chars) (limit : Int)
    (hs : isSub (str "limit") (lowerL s) = true) :
    (cached_execute_query db st s limit).executed = none ∨
    (cached_execute_query db st s limit).executed = some s := by
  rw [cached_execute_query]
  cases cacheLookup st (s, limit) with
  | some v => exact Or.inl rfl
  | none =>
    show (execBody db s limit).executed = none ∨ (execBody db s limit).executed = some s
    rw [execBody]
    cases db.connectError with
    | some e => exact Or.inl rfl
    | none =>
      by_cases hd : isDestructive s = true
      · rw [if_pos hd]
        exact Or.inl rfl
      · rw [if_neg hd]
        have hstmt : execStmt s limit = s := by
          rw [execStmt, if_pos (show containsL (lowerL s) (str "limit") = true from hs)]
        cases henv : db.exec (execStmt s limit) <;> rw [hstmt] <;> exact Or.inr rfl

theorem run_nlp_query_gen_ok (gen : Chars → Except Chars Chars) (db : DBEnv)
    (st : CacheState) (m : Metrics) (q : Chars) (limit : Int) (format : Chars) (rt : ℚ)
    (s : Chars) (hgen : gen q = .ok s) :
    (run_nlp_query gen db st m q limit format rt).executed =
      (cached_execute_query db st s limit).executed ∧
    (sqlReported (run_nlp_query gen db st m q limit format rt).resp = none ∨
      sqlReported (run_nlp_query gen db st m q limit format rt).resp = some s) := by
  rw [run_nlp_query, hgen]
  dsimp only
  rw [runExecPhase]
  dsimp only
  cases h2 : (execute_query db st s limit).val.2 with
  | some error =>
    rw [execute_query] at h2
    constructor
    · show (execute_query db st s limit).executed = _
      rw [execute_query]
    · exact Or.inr rfl
  | none =>
    rw [execute_query] at h2
    by_cases hf : lowerL format = str "csv"
    · rw [if_pos hf]
      exact ⟨rfl, Or.inl rfl⟩
    · rw [if_neg hf]
      exact ⟨rfl, Or.inr rfl⟩

/-- **C4.**  With the real pipeline as generation step, the statement
`generate_sql` produces contains `LIMIT` (case-insensitively), so the
`LIMIT`-appending branch of `cached_execute_query` never fires: the
statement handed to the cursor, when one is handed at all, is exactly the
generated statement, and it is the same string the response reports in its
`sql` field (the CSV response reports none).  The keyword-fallback
statements likewise already carry a `LIMIT`. -/
theorem C4_generated_sql_executed_verbatim (env : NlpEnv) (db : DBEnv) (st : CacheState)
    (m : Metrics) (q : Chars) (limit : Int) (format : Chars) (rt : ℚ) :
    isSub (str "limit") (lowerL (generate_sql env q)) = true ∧
    ((run_nlp_query (fun q' => .ok (generate_sql env q')) db st m q limit format rt).executed
        = none ∨
     (run_nlp_query (fun q' => .ok (generate_sql env q')) db st m q limit format rt).executed
        = some (generate_sql env q)) ∧
    (sqlReported
        (run_nlp_query (fun q' => .ok (generate_sql env q')) db st m q limit format rt).resp
        = none ∨
     sqlReported
        (run_nlp_query (fun q' => .ok (generate_sql env q')) db st m q limit format rt).resp
        = some (generate_sql env q)) ∧
    isSub (str "limit") (lowerL famSQL) = true ∧
    isSub (str "limit") (lowerL venSQL) = true := by
  have hs := generate_sql_limit env q
  have hrun := run_nlp_query_gen_ok (fun q' => .ok (generate_sql env q')) db st m q limit
    format rt (generate_sql env q) rfl
  refine ⟨hs, ?_, hrun.2, by decide, by decide⟩
  rw [hrun.1]
  exact cached_executed_shape db st (generate_sql env q) limit hs

/-! ### C1: every request gets a response dictionary, never an exception -/

theorem runExecPhase_shape (db : DBEnv) (st : CacheState) (m : Metrics) (q : Chars)
    (limit : Int) (format : Chars) (rt : ℚ) (sql : Chars) :
    (∃ err sugg, (runExecPhase db st m q limit format rt sql).resp =
        .errorResp q sql err sugg (mkMeta rt)) ∨
    (∃ rows n, (runExecPhase db st m q limit format rt sql).resp =
        .json q sql rows n (mkMeta rt)) ∨
    (∃ content, (runExecPhase db st m q limit format rt sql).resp = .csv content) := by
  rw [runExecPhase]
  dsimp only
  cases h2 : (execute_query db st sql limit).val.2 with
  | some error => exact Or.inl ⟨error, errorSuggestion error, rfl⟩
  | none =>
    by_cases hf : lowerL format = str "csv"
    · rw [if_pos hf]
      exact Or.inr (Or.inr ⟨_, rfl⟩)
    · rw [if_neg hf]
      exact Or.inr (Or.inl ⟨_, _, rfl⟩)

/-- **C1.**  `run_nlp_query` is a total function into response dictionaries:
every outcome is an error dict carrying the request's `query` together with
`sql`, `error`, `suggestion` and `meta` fields, a JSON success dict, or a
CSV response — never a propagated exception.  The two failure paths are
characterised exactly: a failed generation with no keyword fallback answers
the truncated exception message, and a database error answers the statement
with its error and suggestion. -/
theorem C1_run_nlp_query_never_raises (gen : Chars → Except Chars Chars) (db : DBEnv)
    (st : CacheState) (m : Metrics) (q : Chars) (limit : Int) (format : Chars) (rt : ℚ) :
    ((∃ sql err sugg, (run_nlp_query gen db st m q limit format rt).resp =
        .errorResp q sql err sugg (mkMeta rt)) ∨
     (∃ sql rows n, (run_nlp_query gen db st m q limit format rt).resp =
        .json q sql rows n (mkMeta rt)) ∨
     (∃ content, (run_nlp_query gen db st m q limit format rt).resp = .csv content)) ∧
    (∀ e, gen q = .error e →
      containsL (lowerL q) (str "object") = false →
      containsL (lowerL q) (str "famil") = false →
      containsL (lowerL q) (str "vendor") = false →
      (run_nlp_query gen db st m q limit format rt).resp =
        .errorResp q (str "SQL generation failed") (e.take 100) genFailSuggestion
          (mkMeta rt)) ∧
    (∀ s er, gen q = .ok s → (cached_execute_query db st s limit).val.2 = some er →
      (run_nlp_query gen db st m q limit format rt).resp =
        .errorResp q s er (errorSuggestion er) (mkMeta rt)) := by
  refine ⟨?_, ?_, ?_⟩
  · rw [run_nlp_query]
    cases hg : gen q with
    | error e =>
      dsimp only
      by_cases h1 : (containsL (lowerL q) (str "object") ||
          containsL (lowerL q) (str "famil")) = true
      · rw [if_pos h1]
        rcases runExecPhase_shape db st m q limit format rt famSQL with ⟨er, sg, h⟩ | h | h
        · exact Or.inl ⟨famSQL, er, sg, h⟩
        · exact Or.inr (Or.inl ⟨famSQL, h.choose, h.choose_spec.choose, h.choose_spec.choose_spec⟩)
        · exact Or.inr (Or.inr h)
      · rw [if_neg h1]
        by_cases h2 : containsL (lowerL q) (str "vendor") = true
        · rw [if_pos h2]
          rcases runExecPhase_shape db st m q limit format rt venSQL with ⟨er, sg, h⟩ | h | h
          · exact Or.inl ⟨venSQL, er, sg, h⟩
          · exact Or.inr (Or.inl ⟨venSQL, h.choose, h.choose_spec.choose,
              h.choose_spec.choose_spec⟩)
          · exact Or.inr (Or.inr h)
        · rw [if_neg h2]
          exact Or.inl ⟨str "SQL generation failed", e.take 100, genFailSuggestion, rfl⟩
    | ok s =>
      dsimp only
      rcases runExecPhase_shape db st m q limit format rt s with ⟨er, sg, h⟩ | h | h
      · exact Or.inl ⟨s, er, sg, h⟩
      · exact Or.inr (Or.inl ⟨s, h.choose, h.choose_spec.choose, h.choose_spec.choose_spec⟩)
      · exact Or.inr (Or.inr h)
  · intro e hg ho hf hv
    rw [run_nlp_query, hg]
    simp [ho, hf, hv]
  · intro s er hg h2
    rw [run_nlp_query, hg]
    dsimp only
    rw [runExecPhase]
    dsimp only
    rw [show execute_query db st s limit = cached_execute_query db st s limit from rfl, h2]

/-- **C1, witness.**  The two failure paths at concrete inputs: a raised
generation error on a keyword-free question, and a database error on a
generated statement. -/
theorem C1_run_nlp_query_never_raises_witness :
    (run_nlp_query (fun _ => Except.error (str "boom")) ⟨none, fun _ => .ok []⟩ []
        METRICS_init (str "hello there") 100 (str "json") 0).resp =
      QueryResponse.errorResp (str "hello there") (str "SQL generation failed")
        ((str "boom").take 100) genFailSuggestion (mkMeta 0) ∧
    (run_nlp_query (fun _ => Except.ok (str "SELECT x LIMIT 1;"))
        ⟨none, fun _ => .error (str "relation \"t\" does not exist")⟩ []
        METRICS_init (str "hello there") 100 (str "json") 0).resp =
      QueryResponse.errorResp (str "hello there") (str "SELECT x LIMIT 1;")
        (str "relation \"t\" does not exist")
        (errorSuggestion (str "relation \"t\" does not exist")) (mkMeta 0) := by
  constructor
  · exact (C1_run_nlp_query_never_raises (fun _ => Except.error (str "boom"))
      ⟨none, fun _ => .ok []⟩ [] METRICS_init (str "hello there") 100 (str "json") 0).2.1
      (str "boom") rfl (by decide) (by decide) (by decide)
  · exact (C1_run_nlp_query_never_raises (fun _ => Except.ok (str "SELECT x LIMIT 1;"))
      ⟨none, fun _ => .error (str "relation \"t\" does not exist")⟩ [] METRICS_init
      (str "hello there") 100 (str "json") 0).2.2
      (str "SELECT x LIMIT 1;") (str "relation \"t\" does not exist") rfl (by decide)
